import Mathlib

/-!
Verification development for the documentation lint tool
(`src/tools/doclint.py`).

The Python program is shallowly embedded:

* Python runtime values become the inductive type `Val`;
* Python exceptions become `Except PyErr`;
* the file-system walk of `index_docs` is abstracted into explicit lists
  of `(path, file text)` pairs given in enumeration order (a missing
  directory is the empty enumeration, and the glob patterns are part of
  the enumeration);
* mutation of the shared error/warning logs becomes explicit
  accumulation of the appended lines, in program order.  A raised
  exception aborts the whole run, and the partially mutated index is
  never observed afterwards, so an exception is modelled as
  `Except.error` discarding the partial appends.
-/

/-- Python runtime values produced and consumed by the tool.  Floats are
carried as the matched source text: no behaviour that any claim depends
on inspects the numeric value of a float beyond truthiness. -/
inductive Val where
  | pyNone : Val
  | str (s : String) : Val
  | int (n : Int) : Val
  | bool (b : Bool) : Val
  | float (raw : String) : Val
  | list (items : List Val) : Val
  | dict (entries : List (String × Val)) : Val

/-- Python exceptions that the embedded code can raise. -/
inductive PyErr where
  | valueError (msg : String) : PyErr
  | attributeError (msg : String) : PyErr
  | typeError (msg : String) : PyErr

/-- The apostrophe character, written via its code point. -/
def aposC : Char := Char.ofNat 39

/-- The apostrophe as a one-character string. -/
def aposS : String := String.mk [aposC]

/-- Python `str.strip()` whitespace set (ASCII part; the exotic Unicode
whitespace Python also strips never occurs in the corpus format). -/
def isPyWs (c : Char) : Bool :=
  c == ' ' || c == '\t' || c == '\n' || c == '\r' ||
    c == Char.ofNat 11 || c == Char.ofNat 12

/-- Strip leading and trailing Python whitespace from a character list. -/
def stripChars (cs : List Char) : List Char :=
  ((cs.dropWhile isPyWs).reverse.dropWhile isPyWs).reverse

/-- Python `s.strip()`. -/
def pyStrip (s : String) : String := String.mk (stripChars s.data)

/-- Helper for `pySplitlines`: split on a line terminator, Python style.
Python `str.splitlines` drops a trailing empty piece after a final
terminator.  The terminators `\n`, `\r\n` and `\r` are modelled (the
exotic Unicode terminators Python also recognises never occur here). -/
def splitLinesAux : List Char → List Char → List (List Char)
  | [], acc => [acc.reverse]
  | '\r' :: '\n' :: t, acc =>
    acc.reverse :: (match t with | [] => [] | _ :: _ => splitLinesAux t [])
  | '\n' :: t, acc =>
    acc.reverse :: (match t with | [] => [] | _ :: _ => splitLinesAux t [])
  | '\r' :: t, acc =>
    acc.reverse :: (match t with | [] => [] | _ :: _ => splitLinesAux t [])
  | c :: t, acc => splitLinesAux t (c :: acc)

/-- Python `text.splitlines()`. -/
def pySplitlines (cs : List Char) : List (List Char) :=
  match cs with
  | [] => []
  | _ :: _ => splitLinesAux cs []

/-- Leading-space count of a physical line
(`len(ln) - len(ln.lstrip(" "))`: only the space character counts). -/
def leadSpaces (cs : List Char) : Nat :=
  (cs.takeWhile (fun c => c == ' ')).length

/-- Whether a stripped line starts a list item (`stripped.startswith("- ")`). -/
def startsDash (cs : List Char) : Bool :=
  match cs with
  | '-' :: ' ' :: _ => true
  | _ => false

/-- Whether a character list contains a colon (`":" in s`). -/
def hasColon (cs : List Char) : Bool := cs.any (fun c => c == ':')

/-- Whether a stripped item text starts with a quote character. -/
def startsQuote (cs : List Char) : Bool :=
  match cs with
  | c :: _ => c == '"' || c == aposC
  | [] => false

/-- Python `s.split(":", 1)`: split at the first colon.  Only used under
a `hasColon` guard, mirroring the source. -/
def splitColon : List Char → (List Char × List Char)
  | [] => ([], [])
  | ':' :: t => ([], t)
  | c :: t =>
    let p := splitColon t
    (c :: p.1, p.2)

/-- ASCII lower-casing of a character (Python `str.lower`, ASCII part). -/
def asciiLower (c : Char) : Char :=
  if 'A' ≤ c && c ≤ 'Z' then Char.ofNat (c.toNat + 32) else c

/-- ASCII decimal digit test (`\d`, ASCII part; Python also accepts
Unicode digits, which never occur in the corpus identifiers). -/
def isDig (c : Char) : Bool := '0' ≤ c && c ≤ '9'

/-- Decimal digits to a natural number (`int(...)` on a digit string). -/
def digitsToNat (cs : List Char) : Nat :=
  cs.foldl (fun a c => a * 10 + (c.toNat - 48)) 0

/-- Python `int(v)` on text matching `-?\d+`. -/
def textToInt (cs : List Char) : Int :=
  match cs with
  | '-' :: t => - (digitsToNat t : Int)
  | t => (digitsToNat t : Int)

/-- Match of `re.fullmatch(r"-?\d+", v)`. -/
def isIntText (cs : List Char) : Bool :=
  match cs with
  | '-' :: t => !t.isEmpty && t.all isDig
  | t => !t.isEmpty && t.all isDig

/-- Match of `re.fullmatch(r"-?\d+\.\d+", v)`. -/
def isFloatText (cs : List Char) : Bool :=
  let body := match cs with
    | '-' :: t => t
    | t => t
  let intPart := body.takeWhile isDig
  let rest := body.drop intPart.length
  !intPart.isEmpty &&
    (match rest with
     | '.' :: frac => !frac.isEmpty && frac.all isDig
     | _ => false)

/-- Whether the text of a parsed float denotes zero (for truthiness). -/
def floatIsZero (raw : String) : Bool :=
  raw.data.all (fun c => c == '0' || c == '.' || c == '-')

/-- Python truthiness of an embedded value. -/
def pyTruthy : Val → Bool
  | Val.pyNone => false
  | Val.str s => !s.isEmpty
  | Val.int n => n != 0
  | Val.bool b => b
  | Val.float raw => !floatIsZero raw
  | Val.list items => !items.isEmpty
  | Val.dict entries => !entries.isEmpty

/-- Python `a or b` specialised to a value with a default. -/
def pyOr (a b : Val) : Val := if pyTruthy a then a else b

/-- First-match lookup in an embedded dict (parser-built dicts have
unique keys, so this is Python dict lookup). -/
def dictLookup (entries : List (String × Val)) (k : String) : Option Val :=
  (entries.find? (fun kv => kv.1 == k)).map (fun kv => kv.2)

/-- Python dict insertion: overwrite in place, else append (insertion
order preserved, as for Python dicts). -/
def dictIns {α : Type} : List (String × α) → String → α → List (String × α)
  | [], k, v => [(k, v)]
  | (k0, v0) :: t, k, v =>
    if k0 == k then (k0, v) :: t else (k0, v0) :: dictIns t k v

/-- Python `dst.update(src)` on dicts. -/
def dictUpdate (dst src : List (String × Val)) : List (String × Val) :=
  src.foldl (fun acc kv => dictIns acc kv.1 kv.2) dst

/-- Python `obj.get(key)` (one-argument form, default `None`).  Only
dicts have `.get`; any other receiver raises `AttributeError`. -/
def pyGet (v : Val) (k : String) : Except PyErr Val :=
  match v with
  | Val.dict entries => Except.ok ((dictLookup entries k).getD Val.pyNone)
  | _ => Except.error (PyErr.attributeError ("object has no attribute get"))

/-- Python `obj.get(key, default)`. -/
def pyGetD (v : Val) (k : String) (d : Val) : Except PyErr Val :=
  match v with
  | Val.dict entries => Except.ok ((dictLookup entries k).getD d)
  | _ => Except.error (PyErr.attributeError ("object has no attribute get"))

/-- Python iteration `for x in v`: lists yield items, strings yield
one-character strings, dicts yield their keys; other values raise
`TypeError`. -/
def pyIter (v : Val) : Except PyErr (List Val) :=
  match v with
  | Val.list items => Except.ok items
  | Val.str s => Except.ok (s.data.map (fun c => Val.str (String.mk [c])))
  | Val.dict entries => Except.ok (entries.map (fun kv => Val.str kv.1))
  | _ => Except.error (PyErr.typeError ("object is not iterable"))

/-- Python `v.startswith(p)`: only strings have `startswith`. -/
def pyStartswith (v : Val) (p : String) : Except PyErr Bool :=
  match v with
  | Val.str s => Except.ok (p.isPrefixOf s)
  | _ => Except.error (PyErr.attributeError ("object has no attribute startswith"))

/-- Whether a value is unhashable (would raise `TypeError` as a dict
lookup key): lists and dicts are, all scalars hash fine. -/
def isUnhashable : Val → Bool
  | Val.list _ => true
  | Val.dict _ => true
  | _ => false

/-- Key membership test `ref_id in m` for a Python-dict keyed by
strings: among our scalar values only an equal string key matches
(`True == 1` and similar cross-type equalities never meet a string
key).  The caller must have excluded unhashable values. -/
def keyMem (keys : List String) (ref : Val) : Bool :=
  match ref with
  | Val.str s => keys.any (fun k => k == s)
  | _ => false

/-- Python `str(float(...))` on text matched by `-?\d+\.\d+`: sign,
integer part without leading zeros, fractional part without trailing
zeros.  The scientific-notation thresholds of Python float repr are not
modelled; no claim inspects a formatted float. -/
def floatReprText (raw : String) : String :=
  let body := match raw.data with
    | '-' :: t => t
    | t => t
  let sign : List Char := match raw.data with
    | '-' :: _ => ['-']
    | _ => []
  let intPart := body.takeWhile isDig
  let frac := (body.drop (intPart.length + 1))
  let intCore := intPart.dropWhile (fun c => c == '0')
  let fracCore := (frac.reverse.dropWhile (fun c => c == '0')).reverse
  let i := if intCore.isEmpty then ['0'] else intCore
  let f := if fracCore.isEmpty then ['0'] else fracCore
  String.mk (sign ++ i ++ ['.'] ++ f)

/-- Escape for the simplified string repr used inside containers. -/
def reprEscape (c : Char) : List Char :=
  if c == '\\' then ['\\', '\\']
  else if c == aposC then ['\\', aposC]
  else if c == '\n' then ['\\', 'n']
  else if c == '\r' then ['\\', 'r']
  else if c == '\t' then ['\\', 't']
  else [c]

/-- Simplified Python `repr` of a string: always single-quoted with the
basic escapes.  (Python switches quote style when the string itself
contains a quote; no claim depends on repr details of container
elements.) -/
def strRepr (s : String) : String :=
  aposS ++ String.mk (s.data.flatMap reprEscape) ++ aposS

/-- Intersperse a separator between rendered pieces. -/
def joinWith (sep : String) : List String → String
  | [] => ""
  | [x] => x
  | x :: t => x ++ sep ++ joinWith sep t

/-- Python `str(v)` / `repr(v)` with a fuel argument for the nested
containers (fuel at least the nesting depth suffices; `pyStr` passes
`sizeOf v`, which always does).  The Boolean selects `repr` (used for
elements inside containers). -/
def pyStrF : Nat → Bool → Val → String
  | 0, _, _ => ""
  | _ + 1, asRepr, Val.str s => if asRepr then strRepr s else s
  | _ + 1, _, Val.int n => toString n
  | _ + 1, _, Val.bool b => if b then "True" else "False"
  | _ + 1, _, Val.pyNone => "None"
  | _ + 1, _, Val.float raw => floatReprText raw
  | fuel + 1, _, Val.list items =>
    "[" ++ joinWith (", ") (items.map (fun v => pyStrF fuel true v)) ++ "]"
  | fuel + 1, _, Val.dict entries =>
    "\x7b" ++
      joinWith (", ")
        (entries.map (fun kv => strRepr kv.1 ++ ": " ++ pyStrF fuel true kv.2)) ++
      "\x7d"

mutual

/-- Nesting-depth bound of a value, used as fuel for `pyStrF`. -/
def valDepth : Val → Nat
  | Val.list items => valDepthL items + 1
  | Val.dict entries => valDepthD entries + 1
  | _ => 1

/-- Nesting-depth bound of a list of values. -/
def valDepthL : List Val → Nat
  | [] => 1
  | v :: t => valDepth v + valDepthL t + 1

/-- Nesting-depth bound of dict entries. -/
def valDepthD : List (String × Val) → Nat
  | [] => 1
  | kv :: t => valDepth kv.2 + valDepthD t + 1

end

/-- Python `str(v)`. -/
def pyStr (v : Val) : String := pyStrF (valDepth v) false v

theorem sanity_pyStr_demo : pyStr (Val.int 5) = "5" := rfl

/-! ## The scalar parser

`load_simple_yaml` defines `parse_scalar` twice; the second definition
shadows the first before `parse_block` is ever invoked, so the embedded
`parseScalar` is the second one (the variant with the `>`/`|` marker
case). -/

/-- Whether `v` is delimited by the given quote character on both ends
(Python `v.startswith(q) and v.endswith(q)`; note that a single quote
character satisfies both). -/
def quotedBy (q : Char) (cs : List Char) : Bool :=
  match cs with
  | [] => false
  | c :: t =>
    c == q &&
      (match t.getLast? with
       | some l => l == q
       | none => c == q)

/-- Python `v[1:-1]`. -/
def dropEnds (cs : List Char) : List Char := (cs.drop 1).dropLast

/-- The second `parse_scalar` of `load_simple_yaml`, on character
lists. -/
def parseScalarC (raw : List Char) : Val :=
  let v := stripChars raw
  if v = ['>'] || v = ['|'] then Val.str (String.mk v)
  else if quotedBy '"' v || quotedBy aposC v then Val.str (String.mk (dropEnds v))
  else if (v.map asciiLower) = ("true").data then Val.bool true
  else if (v.map asciiLower) = ("false").data then Val.bool false
  else if isIntText v then Val.int (textToInt v)
  else if isFloatText v then Val.float (String.mk v)
  else Val.str (String.mk v)

/-- `parse_scalar` on strings. -/
def parseScalar (s : String) : Val := parseScalarC s.data

theorem sanity_parseScalar_int : parseScalar (" -07 ") = Val.int (-7) := rfl

theorem sanity_parseScalar_marker : parseScalar (">") = Val.str (">") := rfl

theorem sanity_parseScalar_quote : parseScalar ("\"a b\"") = Val.str ("a b") := rfl

theorem sanity_parseScalar_bool : parseScalar ("TRUE") = Val.bool true := rfl

/-! ## The block parser

`parse_block(start, indent)` is a while-loop over the pre-filtered
lines `raw`, with recursive calls for nested blocks.  It is embedded as
`parseB`, a function structurally recursive on a fuel argument: the
loop state is the accumulator `obj` (`none` until the first line of the
block decides between mapping and sequence) and the current index `i`.
`parseB_complete` below proves that fuel `> raw.length - i` never runs
out, so the fuel is an embedding device, not a semantic one;
`loadSimpleYaml` passes `raw.length + 1`. -/

/-- Python `obj if obj is not None else {}` at the loop exit. -/
def objOrEmpty : Option Val → Val
  | none => Val.dict []
  | some v => v

/-- Accumulator access for a list item line: `obj = [] if obj is None`,
`ValueError` when the accumulator is already a mapping. -/
def objAsList (ln : String) : Option Val → Except PyErr (List Val)
  | none => Except.ok []
  | some (Val.list items) => Except.ok items
  | some _ =>
    Except.error (PyErr.valueError (("Invalid YAML: mixed mapping/list near line: ") ++ ln))

/-- Accumulator access for a mapping line: `obj = {} if obj is None`,
`ValueError` when the accumulator is already a sequence. -/
def objAsDict (ln : String) : Option Val → Except PyErr (List (String × Val))
  | none => Except.ok []
  | some (Val.dict entries) => Except.ok entries
  | some _ =>
    Except.error (PyErr.valueError (("Invalid YAML: mixed list/mapping near line: ") ++ ln))

/-- Merge of the nested block parsed after a `- key: value` item:
`item.update(nested)` when the nested block is a mapping, otherwise the
`_nested` fallback (the nested result is never Python `None`). -/
def mergeItem (key : String) (scalar : Val) (nested : Val) : List (String × Val) :=
  match nested with
  | Val.dict nd => dictUpdate [(key, scalar)] nd
  | other => [(key, scalar), (("_nested"), other)]

/-- One result of the block parser: the parsed value and the index of
the first unconsumed line. -/
abbrev PRes := Option (Except PyErr (Val × Nat))

/-- What one iteration of the `parse_block` loop does with the current
line: stop the block (`break`), raise, continue at the next line with
an updated accumulator, or parse a nested block at `indent + 2` and
continue behind it with the accumulator built from the nested value. -/
inductive StepA where
  | stop : StepA
  | fail (e : PyErr) : StepA
  | jump (obj2 : Option Val) : StepA
  | nest (combine : Val → Val) : StepA

/-- Classification of the current line by the `parse_block` loop body
(every branch of the source loop, in source order). -/
def lineStep (ln : String) (indent : Nat) (obj : Option Val) : StepA :=
  let cur := leadSpaces ln.data
  if cur ≠ indent then StepA.stop
  else
    let stripped := stripChars ln.data
    if startsDash stripped then
      match objAsList ln obj with
      | Except.error e => StepA.fail e
      | Except.ok items =>
        let itemText := stripChars (stripped.drop 2)
        if hasColon itemText && !startsQuote itemText then
          let p := splitColon itemText
          let key := String.mk (stripChars p.1)
          let vtext := stripChars p.2
          if vtext.isEmpty then
            StepA.nest (fun nested => Val.list (items ++ [Val.dict [(key, nested)]]))
          else
            StepA.nest (fun nested =>
              Val.list (items ++ [Val.dict (mergeItem key (parseScalarC vtext) nested)]))
        else StepA.jump (some (Val.list (items ++ [parseScalarC itemText])))
    else if hasColon stripped then
      match objAsDict ln obj with
      | Except.error e => StepA.fail e
      | Except.ok entries =>
        let p := splitColon stripped
        let key := String.mk (stripChars p.1)
        let vtext := stripChars p.2
        if vtext.isEmpty then
          StepA.nest (fun nested => Val.dict (dictIns entries key nested))
        else StepA.jump (some (Val.dict (dictIns entries key (parseScalarC vtext))))
    else StepA.fail (PyErr.valueError (("Invalid YAML line: ") ++ ln))

/-- The embedded `parse_block` loop.  `raw` is the pre-filtered line
list (as whole lines, indentation included), `obj` the accumulator of
the current block (`none` before the first line decides mapping vs
sequence), `i` the current index, `indent` the block's indentation. -/
def parseB (fuel : Nat) (raw : List String) (obj : Option Val) (i indent : Nat) : PRes :=
  match fuel with
  | 0 => none
  | fuel + 1 =>
    match raw[i]? with
    | none => some (Except.ok (objOrEmpty obj, i))
    | some ln =>
      match lineStep ln indent obj with
      | StepA.stop => some (Except.ok (objOrEmpty obj, i))
      | StepA.fail e => some (Except.error e)
      | StepA.jump obj2 => parseB fuel raw obj2 (i + 1) indent
      | StepA.nest combine =>
        match parseB fuel raw none (i + 1) (indent + 2) with
        | none => none
        | some (Except.error e) => some (Except.error e)
        | some (Except.ok (nested, j)) => parseB fuel raw (some (combine nested)) j indent

/-! ## The folded-text extractor -/

/-- Length of the maximal run of regex whitespace (`\s*`) at the head. -/
def wsRun (cs : List Char) : Nat := (cs.takeWhile isPyWs).length

/-- Greedy resolution of the trailing `\s*$` of the folded-marker
pattern (with `re.MULTILINE`, `$` holds at the end of the text or just
before a newline): try the longest whitespace consumption first,
backtracking to shorter ones; return the remaining text after the match
end. -/
def findDollar (cs : List Char) : Nat → Option (List Char)
  | 0 =>
    (match cs with
     | [] => some []
     | '\n' :: _ => some cs
     | _ => none)
  | k + 1 =>
    (match cs.drop (k + 1) with
     | [] => some []
     | '\n' :: _ => some (cs.drop (k + 1))
     | _ => findDollar cs k)

/-- Match of the pattern `^{key}:\s*{marker}\s*$` at the current
position (which the caller guarantees to be a line start).  Because the
marker is not a whitespace character, the greedy `\s*` before it must
consume exactly the whitespace run.  Returns the text after the match
end. -/
def matchMarkerHeader (key : List Char) (marker : Char) (cs : List Char) :
    Option (List Char) :=
  match (key ++ [':']).isPrefixOf cs with
  | false => none
  | true =>
    let afterKey := cs.drop (key.length + 1)
    let afterWs := afterKey.drop (wsRun afterKey)
    match afterWs with
    | c :: afterMarker =>
      if c == marker then findDollar afterMarker (wsRun afterMarker) else none
    | [] => none

/-- Scan of `re.search` with `re.MULTILINE`: try the pattern at every
line start, left to right; return the text after the first match. -/
def injSearch (key : List Char) (marker : Char) : List Char → Bool → Option (List Char)
  | [], _ => none
  | c :: t, atStart =>
    match (if atStart then matchMarkerHeader key marker (c :: t) else none) with
    | some rest => some rest
    | none => injSearch key marker t (c == '\n')

/-- The collection loop of `inject_folded`: keep blank lines as empty
strings, keep two-space-indented lines with the two spaces dropped,
stop at the first other line. -/
def collectFolded : List (List Char) → List String
  | [] => []
  | ln :: t =>
    if (stripChars ln).isEmpty then ("") :: collectFolded t
    else
      match ln with
      | ' ' :: ' ' :: body => String.mk body :: collectFolded t
      | _ => []

/-- The embedded `inject_folded(key, marker, data)`: search the original
text for the folded header; when found, overwrite `data[key]` with the
collected continuation lines joined by newlines and stripped. -/
def injectFolded (key : String) (marker : Char) (text : List Char)
    (data : List (String × Val)) : List (String × Val) :=
  match injSearch key.data marker text true with
  | none => data
  | some rest =>
    let collected := collectFolded (pySplitlines rest)
    dictIns data key (Val.str (pyStrip (joinWith ("\n") collected)))

/-! ## The loader `load_simple_yaml` -/

/-- The pre-filter: drop blank and comment-only lines. -/
def filterRaw (lines : List (List Char)) : List String :=
  (lines.filter (fun ln =>
      let s := stripChars ln
      !(s.isEmpty || s.head? == some '#'))).map String.mk

/-- The folded-marker allow-list pass at the end of `load_simple_yaml`:
for each key in `("purpose",)` whose parsed value is the `>`/`|`
sentinel, run `inject_folded` for both markers. -/
def foldedPass (text : List Char) (d : List (String × Val)) : List (String × Val) :=
  let pv := (dictLookup d ("purpose")).getD Val.pyNone
  match pv with
  | Val.str s =>
    if s = (">") || s = ("|") then
      injectFolded ("purpose") '|' text (injectFolded ("purpose") '>' text d)
    else d
  | _ => d

/-- The embedded `load_simple_yaml`.  The `none` branch of the fuelled
block parser is unreachable (`parseB_complete`); it is mapped to a
`ValueError` to keep the function total. -/
def loadSimpleYaml (text : String) : Except PyErr Val :=
  let lines := pySplitlines text.data
  let raw := filterRaw lines
  match parseB (raw.length + 1) raw none 0 0 with
  | none => Except.error (PyErr.valueError ("fuel exhausted: unreachable"))
  | some (Except.error e) => Except.error e
  | some (Except.ok (parsed, _)) =>
    match parsed with
    | Val.dict d => Except.ok (Val.dict (foldedPass text.data d))
    | other => Except.ok other

theorem sanity_load_simple :
    loadSimpleYaml ("id: X\nname: \"N N\"\n") =
      Except.ok (Val.dict [(("id"), Val.str ("X")), (("name"), Val.str ("N N"))]) := rfl

theorem sanity_load_nested :
    loadSimpleYaml ("id: X\nscope:\n  screen: TELA_A\nlist:\n  - a: 1\n    b: 2\n  - plain\n") =
      Except.ok (Val.dict
        [(("id"), Val.str ("X")),
         (("scope"), Val.dict [(("screen"), Val.str ("TELA_A"))]),
         (("list"), Val.list
           [Val.dict [(("a"), Val.int 1), (("b"), Val.int 2)],
            Val.str ("plain")])]) := rfl

theorem sanity_load_folded :
    loadSimpleYaml ("id: X\npurpose: >\n  Does X.\n\n  Also Y.\n") =
      Except.ok (Val.dict
        [(("id"), Val.str ("X")),
         (("purpose"), Val.str ("Does X.\n\nAlso Y."))]) := rfl

/-! ## The document index and the identifier patterns -/

/-- One indexed entity: the record `{"path": str(p), "data": data}`. -/
structure Entity where
  path : String
  data : Val

/-- The `DocIndex` dataclass.  Tables are association lists in insertion
order (Python dicts); the error and warning logs are lists of lines. -/
structure DocIndex where
  screens : List (String × Entity)
  components : List (String × Entity)
  requirements : List (String × Entity)
  rules : List (String × Entity)
  flows : List (String × Entity)
  messages : List (String × Val)
  errors : List String
  warnings : List String

/-- Character class `[A-Z0-9_]`. -/
def isUpAl (c : Char) : Bool :=
  ('A' ≤ c && c ≤ 'Z') || ('0' ≤ c && c ≤ '9') || c == '_'

/-- Character class `[A-Z0-9-]`. -/
def isUpAlDash (c : Char) : Bool :=
  ('A' ≤ c && c ≤ 'Z') || ('0' ≤ c && c ≤ '9') || c == '-'

/-- Tail matcher for `cls+$`: at least one class character, then either
the end of the string or a single final newline (in Python, `$` also
matches just before a trailing newline). -/
def tailClassDollar (cls : Char → Bool) : List Char → Bool → Bool
  | [], seen => seen
  | ['\n'], seen => seen
  | c :: t, _ =>
    cls c && tailClassDollar cls t true

/-- `^TELA_[A-Z0-9_]+$` (ID pattern for screens). -/
def patScreen (cs : List Char) : Bool :=
  match cs with
  | 'T' :: 'E' :: 'L' :: 'A' :: '_' :: rest => tailClassDollar isUpAl rest false
  | _ => false

/-- The twelve component prefixes. -/
def componentPrefixes : List String :=
  [("INP"), ("BTN"), ("LBL"), ("SEL"), ("TAB"), ("GRD"),
   ("CHK"), ("RAD"), ("TXT"), ("LNK"), ("ICO"), ("MOD")]

/-- `^(INP|BTN|LBL|SEL|TAB|GRD|CHK|RAD|TXT|LNK|ICO|MOD)_[A-Z0-9_]+$`. -/
def patComponent (cs : List Char) : Bool :=
  match cs with
  | a :: b :: c :: '_' :: rest =>
    componentPrefixes.any (fun p => p == String.mk [a, b, c]) &&
      tailClassDollar isUpAl rest false
  | _ => false

/-- `^RF-\d{3}$`. -/
def patRequirement (cs : List Char) : Bool :=
  match cs with
  | 'R' :: 'F' :: '-' :: a :: b :: c :: rest =>
    isDig a && isDig b && isDig c && (rest = [] || rest = ['\n'])
  | _ => false

/-- `^RN-\d{3}$`. -/
def patRule (cs : List Char) : Bool :=
  match cs with
  | 'R' :: 'N' :: '-' :: a :: b :: c :: rest =>
    isDig a && isDig b && isDig c && (rest = [] || rest = ['\n'])
  | _ => false

/-- `^UC-\d{3}-.+` (no `$` anchor: `re.match` only needs the prefix;
`.` does not match a newline). -/
def patFlow (cs : List Char) : Bool :=
  match cs with
  | 'U' :: 'C' :: '-' :: a :: b :: c :: '-' :: d :: _ =>
    isDig a && isDig b && isDig c && d != '\n'
  | _ => false

/-- `^MSG-[A-Z0-9-]+$`. -/
def patMessage (cs : List Char) : Bool :=
  match cs with
  | 'M' :: 'S' :: 'G' :: '-' :: rest => tailClassDollar isUpAlDash rest false
  | _ => false

/-- The `ID_PATTERNS` table (`.get`: unknown kinds yield `none`). -/
def idPattern (kind : String) : Option (List Char → Bool) :=
  if kind == ("screen") then some patScreen
  else if kind == ("component") then some patComponent
  else if kind == ("requirement") then some patRequirement
  else if kind == ("rule") then some patRule
  else if kind == ("flow") then some patFlow
  else if kind == ("message") then some patMessage
  else none

/-- The warning line appended by `validate_id` on a pattern mismatch. -/
def idWarnMsg (kind id whereLoc : String) : String :=
  ("[id] ") ++ kind ++ (" id ") ++ aposS ++ id ++ aposS ++
    (" fora do padrão em ") ++ whereLoc

/-- The embedded `validate_id(kind, _id, where, idx)`, returning the
lines it appends to the warning log. -/
def validateId (kind id whereLoc : String) : List String :=
  match idPattern kind with
  | none => []
  | some pat => if pat id.data then [] else [idWarnMsg kind id whereLoc]

/-! ## The reference validator -/

/-- One relationship edge discovered by the validation pass. -/
structure RefEdge where
  kind : String
  ref : Val
  loc : String

/-- The `ref_map` of `ensure_ref_exists`, projected to the key sets of
the per-kind tables (the lookup `ref_id not in m` only consults keys). -/
def refMapKeys (idx : DocIndex) (kind : String) : Option (List String) :=
  if kind == ("screen") then some (idx.screens.map (fun kv => kv.1))
  else if kind == ("component") then some (idx.components.map (fun kv => kv.1))
  else if kind == ("requirement") then some (idx.requirements.map (fun kv => kv.1))
  else if kind == ("rule") then some (idx.rules.map (fun kv => kv.1))
  else if kind == ("flow") then some (idx.flows.map (fun kv => kv.1))
  else if kind == ("message") then some (idx.messages.map (fun kv => kv.1))
  else none

/-- The error line appended by `ensure_ref_exists` for a dangling
reference. -/
def refErrMsg (e : RefEdge) : String :=
  ("[ref] ") ++ e.kind ++ (" ") ++ aposS ++ pyStr e.ref ++ aposS ++
    (" não encontrado. Referenciado em ") ++ e.loc

/-- The lines `ensure_ref_exists` appends for an edge once the edge's
reference value is known to be hashable: nothing when the target id is
present in the table for the edge's kind (or the kind is unknown), one
error line when it is absent. -/
def edgeAppend (idx : DocIndex) (e : RefEdge) : List String :=
  match refMapKeys idx e.kind with
  | none => []
  | some keys => if keyMem keys e.ref then [] else [refErrMsg e]

/-- The embedded `ensure_ref_exists(kind, ref_id, where, idx)`: look the
kind up in `ref_map` (silently return for unknown kinds); hash the
reference (raising `TypeError` for lists and dicts); append one error
when the id is not a key of the table. -/
def ensureRefExists (idx : DocIndex) (e : RefEdge) : Except PyErr (List String) :=
  match refMapKeys idx e.kind with
  | none => Except.ok []
  | some keys =>
    if isUnhashable e.ref then Except.error (PyErr.typeError ("unhashable type"))
    else Except.ok (if keyMem keys e.ref then [] else [refErrMsg e])

/-- Edge collection counterpart of `ensureRefExists`: record the edge,
raising exactly where the lookup would raise (the hash check does not
depend on the index contents). -/
def collectRef (e : RefEdge) : Except PyErr (List RefEdge) :=
  if isUnhashable e.ref then Except.error (PyErr.typeError ("unhashable type"))
  else Except.ok [e]

/-- A `for`-loop over `xs` whose body appends `f x`; the first raised
exception aborts the loop (and, in this embedding, discards the
partial appends, which are never observed after an exception). -/
def forE {α β : Type} (f : α → Except PyErr (List β)) : List α → Except PyErr (List β)
  | [] => Except.ok []
  | x :: t => do
    let a ← f x
    let b ← forE f t
    Except.ok (a ++ b)

/-- A `for`-loop over entities appending both warning and error lines. -/
def forWE {α : Type} (f : α → Except PyErr (List String × List String)) :
    List α → Except PyErr (List String × List String)
  | [] => Except.ok ([], [])
  | x :: t => do
    let a ← f x
    let b ← forWE f t
    Except.ok (a.1 ++ b.1, a.2 ++ b.2)

/-- The id named by a component entry of a screen's `components` list:
`c.get("id") if isinstance(c, dict) else c`. -/
def componentEntryId (c : Val) : Val :=
  match c with
  | Val.dict d => (dictLookup d ("id")).getD Val.pyNone
  | _ => c

/-- The ref named by an entry of a component's `validations` list:
`v.get("ref") if isinstance(v, dict) else v`. -/
def validationEntryRef (v : Val) : Val :=
  match v with
  | Val.dict d => (dictLookup d ("ref")).getD Val.pyNone
  | _ => v

/-- The empty Python list, used for `... or []`. -/
def emptyL : Val := Val.list []

/-- The empty Python dict, used for `... or {}`. -/
def emptyD : Val := Val.dict []

/-! ### The loop bodies of `run_validations`

Each `for`-loop body of the source is embedded as a named function (and
its edge-collection counterpart), so that the per-kind passes below are
plain `forE` folds of these bodies. -/

/-- A truthiness-guarded reference check (`if x: ensure_ref_exists(...)`). -/
def refCheckIf (idx : DocIndex) (kind loc : String) (r : Val) :
    Except PyErr (List String) :=
  if pyTruthy r then ensureRefExists idx ⟨kind, r, loc⟩ else Except.ok []

/-- Edge counterpart of `refCheckIf`. -/
def refEdgeIf (kind loc : String) (r : Val) : Except PyErr (List RefEdge) :=
  if pyTruthy r then collectRef ⟨kind, r, loc⟩ else Except.ok []

/-- An unguarded reference check (the `links.*` and `applies_to.*`
loops call `ensure_ref_exists` on every element). -/
def refCheckAlways (idx : DocIndex) (kind loc : String) (r : Val) :
    Except PyErr (List String) :=
  ensureRefExists idx ⟨kind, r, loc⟩

/-- Edge counterpart of `refCheckAlways`. -/
def refEdgeAlways (kind loc : String) (r : Val) : Except PyErr (List RefEdge) :=
  collectRef ⟨kind, r, loc⟩

/-- The `validations` loop body of the component pass: dispatch the ref
by its prefix (`RN-` to rules, `RF-` to requirements; `startswith` on a
non-string raises). -/
def valRefCheck (idx : DocIndex) (loc : String) (v : Val) :
    Except PyErr (List String) := do
  let ref := validationEntryRef v
  if pyTruthy ref then do
    let isRN ← pyStartswith ref ("RN-")
    if isRN then ensureRefExists idx ⟨("rule"), ref, loc⟩
    else do
      let isRF ← pyStartswith ref ("RF-")
      if isRF then ensureRefExists idx ⟨("requirement"), ref, loc⟩
      else Except.ok []
  else Except.ok []

/-- Edge counterpart of `valRefCheck`. -/
def valRefEdge (loc : String) (v : Val) : Except PyErr (List RefEdge) := do
  let ref := validationEntryRef v
  if pyTruthy ref then do
    let isRN ← pyStartswith ref ("RN-")
    if isRN then collectRef ⟨("rule"), ref, loc⟩
    else do
      let isRF ← pyStartswith ref ("RF-")
      if isRF then collectRef ⟨("requirement"), ref, loc⟩
      else Except.ok []
  else Except.ok []

/-- The `behavior_refs` loop body of the component pass. -/
def brefCheck (idx : DocIndex) (loc : String) (b : Val) :
    Except PyErr (List String) :=
  if pyTruthy b then do
    let isUC ← pyStartswith b ("UC-")
    if isUC then ensureRefExists idx ⟨("flow"), b, loc⟩
    else Except.ok []
  else Except.ok []

/-- Edge counterpart of `brefCheck`. -/
def brefEdge (loc : String) (b : Val) : Except PyErr (List RefEdge) :=
  if pyTruthy b then do
    let isUC ← pyStartswith b ("UC-")
    if isUC then collectRef ⟨("flow"), b, loc⟩
    else Except.ok []
  else Except.ok []

/-- The `then` loop body of the requirement pass: a dict action with a
`show_message` key has its message validated (no truthiness guard). -/
def showMsgCheck (idx : DocIndex) (loc : String) (act : Val) :
    Except PyErr (List String) :=
  match act with
  | Val.dict actd =>
    (match dictLookup actd ("show_message") with
     | some mid => ensureRefExists idx ⟨("message"), mid, loc⟩
     | none => Except.ok [])
  | _ => Except.ok []

/-- Edge counterpart of `showMsgCheck`. -/
def showMsgEdge (loc : String) (act : Val) : Except PyErr (List RefEdge) :=
  match act with
  | Val.dict actd =>
    (match dictLookup actd ("show_message") with
     | some mid => collectRef ⟨("message"), mid, loc⟩
     | none => Except.ok [])
  | _ => Except.ok []

/-- The `alternatives` loop body of the requirement pass. -/
def altCheck (idx : DocIndex) (loc : String) (alt : Val) :
    Except PyErr (List String) :=
  match alt with
  | Val.dict ad => do
    let thens ← pyIter (pyOr ((dictLookup ad ("then")).getD Val.pyNone) emptyL)
    forE (showMsgCheck idx loc) thens
  | _ => Except.ok []

/-- Edge counterpart of `altCheck`. -/
def altEdge (loc : String) (alt : Val) : Except PyErr (List RefEdge) :=
  match alt with
  | Val.dict ad => do
    let thens ← pyIter (pyOr ((dictLookup ad ("then")).getD Val.pyNone) emptyL)
    forE (showMsgEdge loc) thens
  | _ => Except.ok []

/-! ### The per-screen pass of `run_validations` -/

/-- Error lines of the screen block of `run_validations` for one screen
entity (the id warning is handled separately, see `checkScreen`). -/
def screenErrors (idx : DocIndex) (it : Entity) : Except PyErr (List String) := do
  let comps ← pyGet it.data ("components")
  let cs ← pyIter (pyOr comps emptyL)
  let e1 ← forE (fun c => refCheckIf idx ("component") it.path (componentEntryId c)) cs
  let reqs ← pyGet it.data ("requirements")
  let rs ← pyIter (pyOr reqs emptyL)
  let e2 ← forE (refCheckIf idx ("requirement") it.path) rs
  let ruls ← pyGet it.data ("rules")
  let rus ← pyIter (pyOr ruls emptyL)
  let e3 ← forE (refCheckIf idx ("rule") it.path) rus
  let fls ← pyGet it.data ("flows")
  let fs ← pyIter (pyOr fls emptyL)
  let e4 ← forE (refCheckIf idx ("flow") it.path) fs
  Except.ok (e1 ++ (e2 ++ (e3 ++ e4)))

/-- Edge collection counterpart of `screenErrors`. -/
def screenEdges (it : Entity) : Except PyErr (List RefEdge) := do
  let comps ← pyGet it.data ("components")
  let cs ← pyIter (pyOr comps emptyL)
  let e1 ← forE (fun c => refEdgeIf ("component") it.path (componentEntryId c)) cs
  let reqs ← pyGet it.data ("requirements")
  let rs ← pyIter (pyOr reqs emptyL)
  let e2 ← forE (refEdgeIf ("requirement") it.path) rs
  let ruls ← pyGet it.data ("rules")
  let rus ← pyIter (pyOr ruls emptyL)
  let e3 ← forE (refEdgeIf ("rule") it.path) rus
  let fls ← pyGet it.data ("flows")
  let fs ← pyIter (pyOr fls emptyL)
  let e4 ← forE (refEdgeIf ("flow") it.path) fs
  Except.ok (e1 ++ (e2 ++ (e3 ++ e4)))

/-! ### The per-component pass -/

/-- Error lines of the component block of `run_validations` for one
component entity. -/
def componentErrors (idx : DocIndex) (it : Entity) : Except PyErr (List String) := do
  let scr ← pyGet it.data ("screens")
  let ss ← pyIter (pyOr scr emptyL)
  let e1 ← forE (refCheckIf idx ("screen") it.path) ss
  let vals ← pyGet it.data ("validations")
  let vs ← pyIter (pyOr vals emptyL)
  let e2 ← forE (valRefCheck idx it.path) vs
  let brefs ← pyGet it.data ("behavior_refs")
  let bs ← pyIter (pyOr brefs emptyL)
  let e3 ← forE (brefCheck idx it.path) bs
  Except.ok (e1 ++ (e2 ++ e3))

/-- Edge collection counterpart of `componentErrors`. -/
def componentEdges (it : Entity) : Except PyErr (List RefEdge) := do
  let scr ← pyGet it.data ("screens")
  let ss ← pyIter (pyOr scr emptyL)
  let e1 ← forE (refEdgeIf ("screen") it.path) ss
  let vals ← pyGet it.data ("validations")
  let vs ← pyIter (pyOr vals emptyL)
  let e2 ← forE (valRefEdge it.path) vs
  let brefs ← pyGet it.data ("behavior_refs")
  let bs ← pyIter (pyOr brefs emptyL)
  let e3 ← forE (brefEdge it.path) bs
  Except.ok (e1 ++ (e2 ++ e3))

/-! ### The per-requirement pass -/

/-- Error lines of the requirement block of `run_validations` for one
requirement entity. -/
def requirementErrors (idx : DocIndex) (it : Entity) : Except PyErr (List String) := do
  let scope0 ← pyGet it.data ("scope")
  let s ← pyGet (pyOr scope0 emptyD) ("screen")
  let c ← pyGet (pyOr scope0 emptyD) ("component")
  let e1 ← refCheckIf idx ("screen") it.path s
  let e2 ← refCheckIf idx ("component") it.path c
  let beh0 ← pyGet it.data ("behavior")
  let alts0 ← pyGet (pyOr beh0 emptyD) ("alternatives")
  let alts ← pyIter (pyOr alts0 emptyL)
  let e3 ← forE (altCheck idx it.path) alts
  let links0 ← pyGet it.data ("links")
  let lr ← pyGet (pyOr links0 emptyD) ("rules")
  let lrs ← pyIter (pyOr lr emptyL)
  let e4 ← forE (refCheckAlways idx ("rule") it.path) lrs
  let lf ← pyGet (pyOr links0 emptyD) ("flows")
  let lfs ← pyIter (pyOr lf emptyL)
  let e5 ← forE (refCheckAlways idx ("flow") it.path) lfs
  let lm ← pyGet (pyOr links0 emptyD) ("messages")
  let lms ← pyIter (pyOr lm emptyL)
  let e6 ← forE (refCheckAlways idx ("message") it.path) lms
  Except.ok (e1 ++ (e2 ++ (e3 ++ (e4 ++ (e5 ++ e6)))))

/-- Edge collection counterpart of `requirementErrors`. -/
def requirementEdges (it : Entity) : Except PyErr (List RefEdge) := do
  let scope0 ← pyGet it.data ("scope")
  let s ← pyGet (pyOr scope0 emptyD) ("screen")
  let c ← pyGet (pyOr scope0 emptyD) ("component")
  let e1 ← refEdgeIf ("screen") it.path s
  let e2 ← refEdgeIf ("component") it.path c
  let beh0 ← pyGet it.data ("behavior")
  let alts0 ← pyGet (pyOr beh0 emptyD) ("alternatives")
  let alts ← pyIter (pyOr alts0 emptyL)
  let e3 ← forE (altEdge it.path) alts
  let links0 ← pyGet it.data ("links")
  let lr ← pyGet (pyOr links0 emptyD) ("rules")
  let lrs ← pyIter (pyOr lr emptyL)
  let e4 ← forE (refEdgeAlways ("rule") it.path) lrs
  let lf ← pyGet (pyOr links0 emptyD) ("flows")
  let lfs ← pyIter (pyOr lf emptyL)
  let e5 ← forE (refEdgeAlways ("flow") it.path) lfs
  let lm ← pyGet (pyOr links0 emptyD) ("messages")
  let lms ← pyIter (pyOr lm emptyL)
  let e6 ← forE (refEdgeAlways ("message") it.path) lms
  Except.ok (e1 ++ (e2 ++ (e3 ++ (e4 ++ (e5 ++ e6)))))

/-! ### The per-rule pass -/

/-- Error lines of the rule block of `run_validations` for one rule
entity. -/
def ruleErrors (idx : DocIndex) (it : Entity) : Except PyErr (List String) := do
  let m0 ← pyGet it.data ("message")
  let msg ← pyGet (pyOr m0 emptyD) ("ref")
  let e1 ← refCheckIf idx ("message") it.path msg
  let ap0 ← pyGet it.data ("applies_to")
  let as0 ← pyGet (pyOr ap0 emptyD) ("screens")
  let asl ← pyIter (pyOr as0 emptyL)
  let e2 ← forE (refCheckAlways idx ("screen") it.path) asl
  let ac0 ← pyGet (pyOr ap0 emptyD) ("components")
  let acl ← pyIter (pyOr ac0 emptyL)
  let e3 ← forE (refCheckAlways idx ("component") it.path) acl
  Except.ok (e1 ++ (e2 ++ e3))

/-- Edge collection counterpart of `ruleErrors`. -/
def ruleEdges (it : Entity) : Except PyErr (List RefEdge) := do
  let m0 ← pyGet it.data ("message")
  let msg ← pyGet (pyOr m0 emptyD) ("ref")
  let e1 ← refEdgeIf ("message") it.path msg
  let ap0 ← pyGet it.data ("applies_to")
  let as0 ← pyGet (pyOr ap0 emptyD) ("screens")
  let asl ← pyIter (pyOr as0 emptyL)
  let e2 ← forE (refEdgeAlways ("screen") it.path) asl
  let ac0 ← pyGet (pyOr ap0 emptyD) ("components")
  let acl ← pyIter (pyOr ac0 emptyL)
  let e3 ← forE (refEdgeAlways ("component") it.path) acl
  Except.ok (e1 ++ (e2 ++ e3))

/-! ### The per-flow pass and `scan_refs` -/

/-- The prefix dispatch of `scan_refs` for one string entry of a `refs`
list, as appended error lines (for string references,
`ensure_ref_exists` cannot raise, so this part of the pass is pure). -/
def refsDispatchErrors (idx : DocIndex) (loc : String) (items : List Val) : List String :=
  items.flatMap (fun r =>
    match r with
    | Val.str s =>
      if ("RF-").isPrefixOf s then edgeAppend idx ⟨("requirement"), Val.str s, loc⟩
      else if ("RN-").isPrefixOf s then edgeAppend idx ⟨("rule"), Val.str s, loc⟩
      else if ("UC-").isPrefixOf s then edgeAppend idx ⟨("flow"), Val.str s, loc⟩
      else if ("MSG-").isPrefixOf s then edgeAppend idx ⟨("message"), Val.str s, loc⟩
      else []
    | _ => [])

/-- Edge collection counterpart of `refsDispatchErrors`. -/
def refsDispatchEdges (loc : String) (items : List Val) : List RefEdge :=
  items.flatMap (fun r =>
    match r with
    | Val.str s =>
      if ("RF-").isPrefixOf s then [⟨("requirement"), Val.str s, loc⟩]
      else if ("RN-").isPrefixOf s then [⟨("rule"), Val.str s, loc⟩]
      else if ("UC-").isPrefixOf s then [⟨("flow"), Val.str s, loc⟩]
      else if ("MSG-").isPrefixOf s then [⟨("message"), Val.str s, loc⟩]
      else []
    | _ => [])

mutual

/-- The recursive `scan_refs` walk, as appended error lines. -/
def scanRefsErrors (idx : DocIndex) (loc : String) : Val → List String
  | Val.list items => scanRefsErrorsL idx loc items
  | Val.dict entries => scanRefsErrorsD idx loc entries
  | _ => []

/-- `scan_refs` over the items of a list. -/
def scanRefsErrorsL (idx : DocIndex) (loc : String) : List Val → List String
  | [] => []
  | v :: t => scanRefsErrors idx loc v ++ scanRefsErrorsL idx loc t

/-- `scan_refs` over the entries of a dict: a key literally named
`refs` holding a list is dispatched by prefix, anything else is
recursed into. -/
def scanRefsErrorsD (idx : DocIndex) (loc : String) : List (String × Val) → List String
  | [] => []
  | (k, v) :: t =>
    (match v, k == ("refs") with
     | Val.list items, true => refsDispatchErrors idx loc items
     | _, _ => scanRefsErrors idx loc v) ++ scanRefsErrorsD idx loc t

end

mutual

/-- Edge collection counterpart of `scanRefsErrors`. -/
def scanRefsEdges (loc : String) : Val → List RefEdge
  | Val.list items => scanRefsEdgesL loc items
  | Val.dict entries => scanRefsEdgesD loc entries
  | _ => []

/-- Edge collection counterpart of `scanRefsErrorsL`. -/
def scanRefsEdgesL (loc : String) : List Val → List RefEdge
  | [] => []
  | v :: t => scanRefsEdges loc v ++ scanRefsEdgesL loc t

/-- Edge collection counterpart of `scanRefsErrorsD`. -/
def scanRefsEdgesD (loc : String) : List (String × Val) → List RefEdge
  | [] => []
  | (k, v) :: t =>
    (match v, k == ("refs") with
     | Val.list items, true => refsDispatchEdges loc items
     | _, _ => scanRefsEdges loc v) ++ scanRefsEdgesD loc t

end

/-- Error lines of the flow block of `run_validations` for one flow
entity. -/
def flowErrors (idx : DocIndex) (it : Entity) : Except PyErr (List String) := do
  let t0 ← pyGet it.data ("trigger")
  let s ← pyGet (pyOr t0 emptyD) ("screen")
  let c ← pyGet (pyOr t0 emptyD) ("component")
  let e1 ← refCheckIf idx ("screen") it.path s
  let e2 ← refCheckIf idx ("component") it.path c
  let mf ← pyGet it.data ("main_flow")
  let e3 := scanRefsErrors idx it.path (pyOr mf emptyL)
  let af ← pyGet it.data ("alternative_flows")
  let e4 := scanRefsErrors idx it.path (pyOr af emptyL)
  Except.ok (e1 ++ (e2 ++ (e3 ++ e4)))

/-- Edge collection counterpart of `flowErrors`. -/
def flowEdges (it : Entity) : Except PyErr (List RefEdge) := do
  let t0 ← pyGet it.data ("trigger")
  let s ← pyGet (pyOr t0 emptyD) ("screen")
  let c ← pyGet (pyOr t0 emptyD) ("component")
  let e1 ← refEdgeIf ("screen") it.path s
  let e2 ← refEdgeIf ("component") it.path c
  let mf ← pyGet it.data ("main_flow")
  let e3 := scanRefsEdges it.path (pyOr mf emptyL)
  let af ← pyGet it.data ("alternative_flows")
  let e4 := scanRefsEdges it.path (pyOr af emptyL)
  Except.ok (e1 ++ (e2 ++ (e3 ++ e4)))

/-! ### The whole validation pass -/

/-- The warning and error lines of one screen entity (the source calls
`validate_id` first, then checks the references). -/
def checkScreen (idx : DocIndex) (sid : String) (it : Entity) :
    Except PyErr (List String × List String) := do
  let es ← screenErrors idx it
  Except.ok (validateId ("screen") sid it.path, es)

/-- The warning and error lines of one component entity. -/
def checkComponent (idx : DocIndex) (cid : String) (it : Entity) :
    Except PyErr (List String × List String) := do
  let es ← componentErrors idx it
  Except.ok (validateId ("component") cid it.path, es)

/-- The warning and error lines of one requirement entity. -/
def checkRequirement (idx : DocIndex) (rid : String) (it : Entity) :
    Except PyErr (List String × List String) := do
  let es ← requirementErrors idx it
  Except.ok (validateId ("requirement") rid it.path, es)

/-- The warning and error lines of one rule entity. -/
def checkRule (idx : DocIndex) (ruid : String) (it : Entity) :
    Except PyErr (List String × List String) := do
  let es ← ruleErrors idx it
  Except.ok (validateId ("rule") ruid it.path, es)

/-- The warning and error lines of one flow entity. -/
def checkFlow (idx : DocIndex) (fid : String) (it : Entity) :
    Except PyErr (List String × List String) := do
  let es ← flowErrors idx it
  Except.ok (validateId ("flow") fid it.path, es)

/-- The embedded `run_validations(idx)`: the five per-kind passes in
source order; the returned index carries the extended logs (mutation of
`idx.errors` / `idx.warnings` made explicit).  The tables themselves
are never changed. -/
def runValidations (idx : DocIndex) : Except PyErr DocIndex := do
  let p1 ← forWE (fun kv => checkScreen idx kv.1 kv.2) idx.screens
  let p2 ← forWE (fun kv => checkComponent idx kv.1 kv.2) idx.components
  let p3 ← forWE (fun kv => checkRequirement idx kv.1 kv.2) idx.requirements
  let p4 ← forWE (fun kv => checkRule idx kv.1 kv.2) idx.rules
  let p5 ← forWE (fun kv => checkFlow idx kv.1 kv.2) idx.flows
  Except.ok { idx with
    errors := idx.errors ++ (p1.2 ++ (p2.2 ++ (p3.2 ++ (p4.2 ++ p5.2)))),
    warnings := idx.warnings ++ (p1.1 ++ (p2.1 ++ (p3.1 ++ (p4.1 ++ p5.1)))) }

/-- All relationship edges declared by the indexed entities, in
validation order; raises exactly where `run_validations` raises. -/
def collectEdges (idx : DocIndex) : Except PyErr (List RefEdge) := do
  let e1 ← forE (fun kv => screenEdges kv.2) idx.screens
  let e2 ← forE (fun kv => componentEdges kv.2) idx.components
  let e3 ← forE (fun kv => requirementEdges kv.2) idx.requirements
  let e4 ← forE (fun kv => ruleEdges kv.2) idx.rules
  let e5 ← forE (fun kv => flowEdges kv.2) idx.flows
  Except.ok (e1 ++ (e2 ++ (e3 ++ (e4 ++ e5))))

/-- All identifier warnings of the validation pass, in order: the five
entity kinds whose ids `run_validations` checks.  (The message table is
never passed to `validate_id`.) -/
def idWarnings (idx : DocIndex) : List String :=
  idx.screens.flatMap (fun kv => validateId ("screen") kv.1 kv.2.path) ++
  (idx.components.flatMap (fun kv => validateId ("component") kv.1 kv.2.path) ++
  (idx.requirements.flatMap (fun kv => validateId ("requirement") kv.1 kv.2.path) ++
  (idx.rules.flatMap (fun kv => validateId ("rule") kv.1 kv.2.path) ++
  idx.flows.flatMap (fun kv => validateId ("flow") kv.1 kv.2.path))))

/-! ## The entity loader `index_docs`

The directory walk is abstracted: each entity kind comes with the list
of its document files `(path, text)` in enumeration order (folders
without `screen.yml`, non-directories, files not matching the glob
pattern and missing directories simply do not appear in the lists). -/

/-- One screen folder: the `screen.yml` path and text, and the text of
the optional sibling `messages.yml`. -/
structure ScreenSrc where
  path : String
  text : String
  msgs : Option String

/-- The enumerated corpus under `20-systems/<system>/`. -/
structure FSys where
  screens : List ScreenSrc
  components : List (String × String)
  requirements : List (String × String)
  rules : List (String × String)
  flows : List (String × String)

/-- The error line `"[<kind>] missing id in <path>"`. -/
def missingIdMsg (kind path : String) : String :=
  ("[") ++ kind ++ ("] missing id in ") ++ path

/-- The declared id of a parsed document:
`str(data.get("id", "")).strip()`. -/
def docIdOf (data : Val) : Except PyErr String := do
  let v ← pyGetD data ("id") (Val.str (""))
  Except.ok (pyStrip (pyStr v))

/-- Loading loop shared by components, requirements, rules and flows:
parse each file, skip it with one error when the id is blank, insert
`{path, data}` keyed by the id otherwise. -/
def loadPlain (kind : String) :
    List (String × String) → List (String × Entity) → List String →
      Except PyErr (List (String × Entity) × List String)
  | [], tab, errs => Except.ok (tab, errs)
  | (path, text) :: t, tab, errs => do
    let data ← loadSimpleYaml text
    let sid ← docIdOf data
    if sid = "" then loadPlain kind t tab (errs ++ [missingIdMsg kind path])
    else loadPlain kind t (dictIns tab sid ⟨path, data⟩) errs

/-- The message collection loop over one `messages.yml`: a message with
a blank id is skipped silently (no error line). -/
def loadMsgItems :
    List Val → List (String × Val) → Except PyErr (List (String × Val))
  | [], msgs => Except.ok msgs
  | m :: t, msgs => do
    let v ← pyGetD m ("id") (Val.str (""))
    let mid := pyStrip (pyStr v)
    loadMsgItems t (if mid = "" then msgs else dictIns msgs mid m)

/-- Processing of one screen folder's optional `messages.yml`: parse
it, read its `messages` list, and collect the message objects into the
flat table (nothing happens when the file does not exist). -/
def loadScreenMsgs (om : Option String) (msgs : List (String × Val)) :
    Except PyErr (List (String × Val)) :=
  match om with
  | none => Except.ok msgs
  | some mtext => do
    let mdata ← loadSimpleYaml mtext
    let mlist ← pyGet mdata ("messages")
    let items ← pyIter (pyOr mlist emptyL)
    loadMsgItems items msgs

/-- The screen loading loop: `screen.yml` as in `loadPlain`; when the
screen was inserted, the optional `messages.yml` feeds the flat message
table.  A screen skipped for a blank id skips its `messages.yml` too
(the `continue` in the source). -/
def loadScreens :
    List ScreenSrc → List (String × Entity) → List (String × Val) → List String →
      Except PyErr (List (String × Entity) × List (String × Val) × List String)
  | [], tab, msgs, errs => Except.ok (tab, msgs, errs)
  | f :: t, tab, msgs, errs => do
    let data ← loadSimpleYaml f.text
    let sid ← docIdOf data
    if sid = "" then loadScreens t tab msgs (errs ++ [missingIdMsg ("screen") f.path])
    else do
      let msgs2 ← loadScreenMsgs f.msgs msgs
      loadScreens t (dictIns tab sid ⟨f.path, data⟩) msgs2 errs

/-- The loading phase of `index_docs` (everything before the
`run_validations` call): builds the tables and the load-time error log;
the warning log starts empty. -/
def loadDocs (fs : FSys) : Except PyErr DocIndex := do
  let s ← loadScreens fs.screens [] [] []
  let c ← loadPlain ("component") fs.components [] s.2.2
  let r ← loadPlain ("requirement") fs.requirements [] c.2
  let ru ← loadPlain ("rule") fs.rules [] r.2
  let fl ← loadPlain ("flow") fs.flows [] ru.2
  Except.ok ⟨s.1, c.1, r.1, ru.1, fl.1, s.2.1, fl.2, []⟩

/-- The embedded `index_docs`: load, then validate. -/
def indexDocs (fs : FSys) : Except PyErr DocIndex := do
  let idx ← loadDocs fs
  runValidations idx

/-! ## The traceability matrix and `main` -/

/-- All elements as strings, or the `TypeError` of `str.join` on a
non-string element. -/
def strsOf : List Val → Except PyErr (List String)
  | [] => Except.ok []
  | Val.str s :: t => do
    let r ← strsOf t
    Except.ok (s :: r)
  | _ :: _ => Except.error (PyErr.typeError ("sequence item: expected str instance"))

/-- Python `sep.join(v)`. -/
def pyJoin (sep : String) (v : Val) : Except PyErr String := do
  let items ← pyIter v
  let strs ← strsOf items
  Except.ok (joinWith sep strs)

/-- `fmt_list(s)`: split a joined cell on commas, strip the parts, keep
the non-blank ones, wrap each in backticks. -/
def fmtList (s : String) : String :=
  if s = "" then ""
  else
    joinWith (" ")
      ((((s.splitOn (",")).map pyStrip).filter (fun p => p ≠ "")).map
        (fun p => ("`") ++ p ++ ("`")))

/-- `fmt_link(url)` (the url cell is formatted with `str`). -/
def fmtLink (url : Val) : String :=
  if pyTruthy url then ("[link](") ++ pyStr url ++ (")") else ""

/-- Stable insertion into a key-sorted list (for
`sorted(..., key=lambda x: x[0])`). -/
def insertByKey (x : String × Entity) :
    List (String × Entity) → List (String × Entity)
  | [] => [x]
  | y :: t => if x.1 < y.1 then x :: y :: t else y :: insertByKey x t

/-- Sort a table by key (Python `sorted` on the items). -/
def sortByKey (l : List (String × Entity)) : List (String × Entity) :=
  l.foldr insertByKey []

/-- One matrix row: screen id, component cell value, joined
requirement, rule and flow cells, and the figma url value. -/
structure MatrixRow where
  tela : String
  comp : Val
  reqs : String
  rules : String
  flows : String
  figma : Val

/-- The row-building loop of `build_trace_matrix` for one screen. -/
def screenRows (sid : String) (it : Entity) : Except PyErr (List MatrixRow) := do
  let sdata := it.data
  let figma0 ← pyGet sdata ("figma")
  let url0 ← pyGet (pyOr figma0 emptyD) ("url")
  let figmaUrl := pyOr url0 (Val.str (""))
  let comps0 ← pyGet sdata ("components")
  let citems ← pyIter (pyOr comps0 emptyL)
  let components := citems.map componentEntryId
  let reqs0 ← pyGet sdata ("requirements")
  let reqsJ ← pyJoin (", ") (pyOr reqs0 emptyL)
  let rules0 ← pyGet sdata ("rules")
  let rulesJ ← pyJoin (", ") (pyOr rules0 emptyL)
  let flows0 ← pyGet sdata ("flows")
  let flowsJ ← pyJoin (", ") (pyOr flows0 emptyL)
  if components.isEmpty then
    Except.ok [⟨sid, Val.str (""), reqsJ, rulesJ, flowsJ, figmaUrl⟩]
  else
    Except.ok (components.map (fun cid => ⟨sid, cid, reqsJ, rulesJ, flowsJ, figmaUrl⟩))

/-- Rendering of one matrix row (the f-string of the source). -/
def renderRow (r : MatrixRow) : String :=
  ("| `") ++ r.tela ++ ("` | `") ++ pyStr r.comp ++ ("` | ") ++
    fmtList r.reqs ++ (" | ") ++ fmtList r.rules ++ (" | ") ++
    fmtList r.flows ++ (" | ") ++ fmtLink r.figma ++ (" |")

/-- The embedded `build_trace_matrix(idx)`. -/
def buildTraceMatrix (idx : DocIndex) : Except PyErr String := do
  let rows ← forE (fun kv => screenRows kv.1 kv.2) (sortByKey idx.screens)
  let md :=
    [("# Matriz de rastreabilidade (gerada)"), (""),
     ("| Tela | Componente | Requisitos | Regras | Fluxos | Figma |"),
     ("|---|---|---|---|---|---|")] ++
    rows.map renderRow ++ [("")]
  Except.ok (joinWith ("\n") md)

/-- The embedded `main`, abstracted over the enumerated corpus: build
the index (load + validate), report.  A non-empty error log raises
`SystemExit(2)`, modelled as exit code 2; otherwise the matrix is built
(and printed or written) and the process ends with exit code 0.
Argument parsing and printing carry no modelled behaviour; an uncaught
exception (the `Except.error` case) aborts the process without reaching
either exit path. -/
def mainExit (fs : FSys) : Except PyErr Nat := do
  let idx ← indexDocs fs
  if idx.errors ≠ [] then Except.ok 2
  else do
    let _ ← buildTraceMatrix idx
    Except.ok 0

theorem sanity_main_clean :
    mainExit ⟨[⟨("a/screen.yml"), ("id: TELA_A\ncomponents:\n  - BTN_OK\n"), none⟩],
       [(("b/BTN_OK.yml"), ("id: BTN_OK\nscreens:\n  - TELA_A\n"))], [], [], []⟩ =
      Except.ok 0 := rfl

theorem sanity_main_dangling :
    mainExit ⟨[⟨("a/screen.yml"), ("id: TELA_A\ncomponents:\n  - BTN_NO\n"), none⟩],
       [], [], [], []⟩ =
      Except.ok 2 := rfl

/-! ## Claims about the scalar parser and the identifier patterns -/

/-- Claim C8, counterexample: on the bare `>` marker, `parse_scalar`
returns the marker itself, a one-character string — not a
two-character marker string as the claim states. -/
theorem c8_counterexample :
    parseScalar (">") = Val.str (">") ∧ (">" : String).length ≠ 2 :=
  ⟨rfl, by decide⟩

/-- Claim C8, amended: every input string that trims to a bare `>` or a
bare `|` is returned by `parse_scalar` as the literal one-character
marker string (the trimmed input itself). -/
theorem c8_marker_sentinel (s : String)
    (h : pyStrip s = (">") ∨ pyStrip s = ("|")) :
    parseScalar s = Val.str (pyStrip s) := by
  have hd : stripChars s.data = ['>'] ∨ stripChars s.data = ['|'] := by
    rcases h with h | h
    · exact Or.inl (congrArg String.data h)
    · exact Or.inr (congrArg String.data h)
  unfold parseScalar parseScalarC pyStrip
  rcases hd with hd | hd <;> rw [hd] <;> rfl

/-- Witness for `c8_marker_sentinel` at the concrete input `" > "`. -/
theorem c8_marker_sentinel_witness :
    parseScalar (" > ") = Val.str (pyStrip (" > ")) :=
  c8_marker_sentinel (" > ") (Or.inl rfl)

/-- Claim C7, counterexample: the flow identifier `UC-123X` consists of
`UC-`, exactly three digits, and one further character, yet
`validate_id` rejects it (a warning is produced), because the flow
pattern `^UC-\d{3}-.+` requires a hyphen after the digits. -/
theorem c7_counterexample : validateId ("flow") ("UC-123X") ("p") ≠ [] := by
  decide

/-- Claim C7, amended: `validate_id` accepts (appends no warning for)
exactly the flow identifiers of the form `UC-`, three digits, a hyphen,
and at least one further character that is not a newline, with
anything after that. -/
theorem c7_flow_pattern (a b c d : Char) (rest : List Char) (loc : String)
    (ha : isDig a = true) (hb : isDig b = true) (hc : isDig c = true)
    (hd : d ≠ '\n') :
    validateId ("flow")
      (String.mk ('U' :: 'C' :: '-' :: a :: b :: c :: '-' :: d :: rest)) loc = [] := by
  have hpat : patFlow ('U' :: 'C' :: '-' :: a :: b :: c :: '-' :: d :: rest) = true := by
    simp [patFlow, ha, hb, hc]
    simpa using hd
  unfold validateId
  rw [show idPattern ("flow") = some patFlow from rfl]
  simp [hpat]

/-- Witness for `c7_flow_pattern` at the concrete identifier
`UC-123-A`. -/
theorem c7_flow_pattern_witness :
    validateId ("flow")
      (String.mk ('U' :: 'C' :: '-' :: '1' :: '2' :: '3' :: '-' :: 'A' :: [])) ("p") = [] :=
  c7_flow_pattern '1' '2' '3' 'A' [] ("p") rfl rfl rfl (by decide)

/-- Claim C9: loading a document that contains `purpose: >` at column 0
followed by the two-space-indented line `Does X.`, a blank line, and
the two-space-indented line `Also Y.` yields a mapping whose `purpose`
value is exactly the folded string `"Does X.\n\nAlso Y."`. -/
theorem c9_folded_purpose :
    ∃ d, loadSimpleYaml ("id: X\npurpose: >\n  Does X.\n\n  Also Y.\n") =
        Except.ok (Val.dict d) ∧
      dictLookup d ("purpose") = some (Val.str ("Does X.\n\nAlso Y.")) :=
  ⟨[(("id"), Val.str ("X")), (("purpose"), Val.str ("Does X.\n\nAlso Y."))], rfl, rfl⟩

/-! ## Claim about termination of the block parser -/

/-- Fuel independence and progress of the `parse_block` loop, by
induction on the number of remaining lines: with any fuel exceeding the
number of remaining lines the result is fuel-independent and defined
(never the out-of-fuel `none`), and a successful parse returns a next
index between the start index and the line count. -/
theorem parseB_fuel_aux (k : Nat) :
    ∀ (raw : List String) (i : Nat), raw.length - i ≤ k → i ≤ raw.length →
      ∀ (indent : Nat) (obj : Option Val) (f1 f2 : Nat),
        raw.length - i < f1 → raw.length - i < f2 →
        parseB f1 raw obj i indent = parseB f2 raw obj i indent ∧
        ∃ e, parseB f1 raw obj i indent = some e ∧
          ∀ v j, e = Except.ok (v, j) → i ≤ j ∧ j ≤ raw.length := by
  induction k with
  | zero =>
    intro raw i hk hi indent obj f1 f2 hf1 hf2
    have hii : raw.length ≤ i := by omega
    have hnone : raw[i]? = none := List.getElem?_eq_none hii
    cases f1 with
    | zero => omega
    | succ g1 =>
      cases f2 with
      | zero => omega
      | succ g2 =>
        simp only [parseB, hnone]
        refine ⟨trivial, Except.ok (objOrEmpty obj, i), rfl, ?_⟩
        intro v j h
        simp only [Except.ok.injEq, Prod.mk.injEq] at h
        omega
  | succ k ih =>
    intro raw i hk hi indent obj f1 f2 hf1 hf2
    cases f1 with
    | zero => omega
    | succ g1 =>
      cases f2 with
      | zero => omega
      | succ g2 =>
        by_cases hlen : raw.length ≤ i
        · have hnone : raw[i]? = none := List.getElem?_eq_none hlen
          simp only [parseB, hnone]
          refine ⟨trivial, Except.ok (objOrEmpty obj, i), rfl, ?_⟩
          intro v j h
          simp only [Except.ok.injEq, Prod.mk.injEq] at h
          omega
        · push_neg at hlen
          have hln : raw[i]? = some raw[i] := List.getElem?_eq_getElem hlen
          simp only [parseB, hln]
          cases hstep : lineStep raw[i] indent obj with
          | stop =>
            refine ⟨rfl, Except.ok (objOrEmpty obj, i), rfl, ?_⟩
            intro v j h
            simp only [Except.ok.injEq, Prod.mk.injEq] at h
            omega
          | fail e =>
            refine ⟨rfl, Except.error e, rfl, ?_⟩
            intro v j h
            simp at h
          | jump obj2 =>
            have H := ih raw (i + 1) (by omega) (by omega) indent obj2 g1 g2
              (by omega) (by omega)
            obtain ⟨heq, e, he, hgood⟩ := H
            refine ⟨heq, e, he, ?_⟩
            intro v j hvj
            have := hgood v j hvj
            omega
          | nest combine =>
            have Hn := ih raw (i + 1) (by omega) (by omega) (indent + 2) none g1 g2
              (by omega) (by omega)
            obtain ⟨heqn, en, hen, hgoodn⟩ := Hn
            have hen2 : parseB g2 raw none (i + 1) (indent + 2) = some en :=
              heqn.symm.trans hen
            rw [hen, hen2]
            cases en with
            | error e =>
              refine ⟨rfl, Except.error e, rfl, ?_⟩
              intro v j h
              simp at h
            | ok p =>
              obtain ⟨nested, j⟩ := p
              have hj := hgoodn nested j rfl
              have Hc := ih raw j (by omega) (by omega) indent (some (combine nested)) g1 g2
                (by omega) (by omega)
              obtain ⟨heqc, ec, hec, hgoodc⟩ := Hc
              refine ⟨heqc, ec, hec, ?_⟩
              intro v j2 hvj
              have := hgoodc v j2 hvj
              omega

/-- Claim C10: the `parse_block` loop terminates on every pre-filtered
line list, start index and indent.  With any fuel exceeding the number
of remaining lines the fuelled embedding is independent of the fuel and
never exhausts it, and a successful parse advances the index without
overrunning the input — each iteration strictly increases the line
index, directly or through a nested block whose returned index is at
least the nested start. -/
theorem c10_parse_block_total (raw : List String) (obj : Option Val)
    (i indent fuel : Nat) (hi : i ≤ raw.length)
    (hfuel : raw.length - i < fuel) :
    parseB fuel raw obj i indent = parseB (raw.length + 1) raw obj i indent ∧
    ∃ e, parseB fuel raw obj i indent = some e ∧
      ∀ v j, e = Except.ok (v, j) → i ≤ j ∧ j ≤ raw.length :=
  parseB_fuel_aux (raw.length - i) raw i (le_refl _) hi indent obj fuel
    (raw.length + 1) hfuel (by omega)

/-- Witness for `c10_parse_block_total` on a concrete one-line input
with surplus fuel. -/
theorem c10_parse_block_total_witness :
    parseB 5 [("a: 1")] none 0 0 = parseB 2 [("a: 1")] none 0 0 ∧
    ∃ e, parseB 5 [("a: 1")] none 0 0 = some e ∧
      ∀ v j, e = Except.ok (v, j) → 0 ≤ j ∧ j ≤ 1 :=
  c10_parse_block_total [("a: 1")] none 0 0 5 (by decide) (by decide)

/-! ## Relating the validation pass to its edge collection

`ensure_ref_exists` has no effect on control flow beyond the hash
check, so the error lines appended by each per-kind pass are exactly
the per-edge lines of the collected edge list.  The following lemmas
prove this simulation. -/

/-- Pushing a congruence through a bind whose head is shared. -/
theorem bind_congr_map {α β γ : Type} (A : Except PyErr α)
    (k1 : α → Except PyErr β) (k2 : α → Except PyErr γ) (F : γ → β)
    (hk : ∀ a, k1 a = (k2 a).map F) :
    (do let a ← A; k1 a) = (do let a ← A; k2 a).map F := by
  cases A with
  | error e => rfl
  | ok a => exact hk a

/-- Reassociating a bind over a mapped head. -/
theorem map_bind_assoc {α β γ : Type} (m : Except PyErr γ) (G : γ → α)
    (k : α → Except PyErr β) :
    (do let a ← m.map G; k a) = (do let x ← m; k (G x)) := by
  cases m with
  | error e => rfl
  | ok x => rfl

/-- `forE` commutes with a per-element `flatMap` simulation. -/
theorem forE_hom {α γ : Type} (h : γ → List String)
    (f : α → Except PyErr (List String)) (g : α → Except PyErr (List γ))
    (xs : List α)
    (H : ∀ x ∈ xs, f x = (g x).map (fun l => l.flatMap h)) :
    forE f xs = (forE g xs).map (fun l => l.flatMap h) := by
  induction xs with
  | nil => rfl
  | cons x t ih =>
    have hx := H x (List.mem_cons_self x t)
    have ht := ih (fun y hy => H y (List.mem_cons_of_mem x hy))
    simp only [forE]
    rw [hx, ht]
    cases g x with
    | error e => rfl
    | ok a =>
      cases forE g t with
      | error e => rfl
      | ok b =>
        show Except.ok (a.flatMap h ++ b.flatMap h) = Except.ok ((a ++ b).flatMap h)
        rw [List.flatMap_append]

/-- `forWE` over per-entity checkers is simulated by `forE` over the
per-entity edge collectors together with the pure warning lines. -/
theorem forWE_hom {α : Type} (h : RefEdge → List String) (w : α → List String)
    (f : α → Except PyErr (List String × List String))
    (g : α → Except PyErr (List RefEdge)) (xs : List α)
    (H : ∀ x ∈ xs, f x = (g x).map (fun es => (w x, es.flatMap h))) :
    forWE f xs = (forE g xs).map (fun es => (xs.flatMap w, es.flatMap h)) := by
  induction xs with
  | nil => rfl
  | cons x t ih =>
    have hx := H x (List.mem_cons_self x t)
    have ht := ih (fun y hy => H y (List.mem_cons_of_mem x hy))
    simp only [forWE, forE]
    rw [hx, ht]
    cases g x with
    | error e => rfl
    | ok a =>
      cases forE g t with
      | error e => rfl
      | ok b =>
        show Except.ok (w x ++ t.flatMap w, a.flatMap h ++ b.flatMap h) =
          Except.ok ((x :: t).flatMap w, (a ++ b).flatMap h)
        rw [List.flatMap_append, List.flatMap_cons]

/-- `ensure_ref_exists` is the per-edge append over the collected
edge, for any kind present in `ref_map`. -/
theorem ensure_eq_collect (idx : DocIndex) (e : RefEdge) (keys : List String)
    (hkeys : refMapKeys idx e.kind = some keys) :
    ensureRefExists idx e = (collectRef e).map (fun es => es.flatMap (edgeAppend idx)) := by
  unfold ensureRefExists
  rw [hkeys]
  show (if isUnhashable e.ref = true then Except.error (PyErr.typeError ("unhashable type"))
        else Except.ok (if keyMem keys e.ref = true then [] else [refErrMsg e])) =
    Except.map (fun es => es.flatMap (edgeAppend idx)) (collectRef e)
  unfold collectRef
  by_cases hu : isUnhashable e.ref = true
  · rw [if_pos hu, if_pos hu]
    rfl
  · rw [if_neg hu, if_neg hu]
    show Except.ok _ = Except.ok _
    simp [edgeAppend, hkeys]

/-- The truthiness-guarded form of `ensure_ref_exists` against the
guarded edge collection. -/
theorem guarded_ensure_eq_collect (idx : DocIndex) (kind : String) (r : Val)
    (loc : String) (keys : List String)
    (hkeys : refMapKeys idx kind = some keys) :
    (if pyTruthy r then ensureRefExists idx ⟨kind, r, loc⟩ else Except.ok []) =
      ((if pyTruthy r then collectRef ⟨kind, r, loc⟩ else Except.ok []).map
        (fun es => es.flatMap (edgeAppend idx))) := by
  by_cases h : pyTruthy r
  · rw [if_pos h, if_pos h]
    exact ensure_eq_collect idx ⟨kind, r, loc⟩ keys hkeys
  · rw [if_neg h, if_neg h]
    rfl

/-- The `refs` prefix dispatch is the per-edge append over its
collected edges. -/
theorem refsDispatch_hom (idx : DocIndex) (loc : String) (items : List Val) :
    refsDispatchErrors idx loc items =
      (refsDispatchEdges loc items).flatMap (edgeAppend idx) := by
  induction items with
  | nil => rfl
  | cons r t ih =>
    simp only [refsDispatchErrors, refsDispatchEdges, List.flatMap_cons,
      List.flatMap_append] at *
    rw [ih]
    cases r with
    | str s =>
      by_cases h1 : ("RF-").isPrefixOf s
      · simp [h1, edgeAppend]
      · by_cases h2 : ("RN-").isPrefixOf s
        · simp [h1, h2, edgeAppend]
        · by_cases h3 : ("UC-").isPrefixOf s
          · simp [h1, h2, h3, edgeAppend]
          · by_cases h4 : ("MSG-").isPrefixOf s
            · simp [h1, h2, h3, h4, edgeAppend]
            · simp [h1, h2, h3, h4]
    | pyNone => simp
    | int n => simp
    | bool b => simp
    | float raw => simp
    | list l => simp
    | dict d => simp

/-- The `scan_refs` walk is the per-edge append over its collected
edges, proved for all three mutual walkers at once by induction on the
size of the value. -/
theorem scanRefs_hom_aux (idx : DocIndex) (loc : String) : ∀ n : Nat,
    (∀ v : Val, sizeOf v ≤ n →
      scanRefsErrors idx loc v = (scanRefsEdges loc v).flatMap (edgeAppend idx)) ∧
    (∀ l : List Val, sizeOf l ≤ n →
      scanRefsErrorsL idx loc l = (scanRefsEdgesL loc l).flatMap (edgeAppend idx)) ∧
    (∀ d : List (String × Val), sizeOf d ≤ n →
      scanRefsErrorsD idx loc d = (scanRefsEdgesD loc d).flatMap (edgeAppend idx)) := by
  intro n
  induction n with
  | zero =>
    refine ⟨fun v hv => ?_, fun l hl => ?_, fun d hd => ?_⟩
    · cases v <;> simp at hv
    · cases l <;> simp at hl
    · cases d <;> simp at hd
  | succ n ih =>
    obtain ⟨ihv, ihl, ihd⟩ := ih
    refine ⟨fun v hv => ?_, fun l hl => ?_, fun d hd => ?_⟩
    · cases v with
      | list items =>
        have : sizeOf items ≤ n := by simp at hv; omega
        simp only [scanRefsErrors, scanRefsEdges]
        exact ihl items this
      | dict entries =>
        have : sizeOf entries ≤ n := by simp at hv; omega
        simp only [scanRefsErrors, scanRefsEdges]
        exact ihd entries this
      | pyNone => rfl
      | str s => rfl
      | int k => rfl
      | bool b => rfl
      | float raw => rfl
    · cases l with
      | nil => rfl
      | cons v t =>
        have hv : sizeOf v ≤ n := by simp at hl; omega
        have ht : sizeOf t ≤ n := by simp at hl; omega
        simp only [scanRefsErrorsL, scanRefsEdgesL, List.flatMap_append]
        rw [ihv v hv, ihl t ht]
    · cases d with
      | nil => rfl
      | cons kv t =>
        obtain ⟨k, v⟩ := kv
        have hv : sizeOf v ≤ n := by simp at hd; omega
        have ht : sizeOf t ≤ n := by simp at hd; omega
        simp only [scanRefsErrorsD, scanRefsEdgesD, List.flatMap_append]
        rw [ihd t ht]
        cases hkk : (k == ("refs")) with
        | true =>
          cases v with
          | list items =>
            exact congrArg (fun x => x ++ (scanRefsEdgesD loc t).flatMap (edgeAppend idx))
              (refsDispatch_hom idx loc items)
          | pyNone =>
            exact congrArg (fun x => x ++ (scanRefsEdgesD loc t).flatMap (edgeAppend idx))
              (ihv Val.pyNone hv)
          | str ss =>
            exact congrArg (fun x => x ++ (scanRefsEdgesD loc t).flatMap (edgeAppend idx))
              (ihv (Val.str ss) hv)
          | int m =>
            exact congrArg (fun x => x ++ (scanRefsEdgesD loc t).flatMap (edgeAppend idx))
              (ihv (Val.int m) hv)
          | bool b =>
            exact congrArg (fun x => x ++ (scanRefsEdgesD loc t).flatMap (edgeAppend idx))
              (ihv (Val.bool b) hv)
          | float raw =>
            exact congrArg (fun x => x ++ (scanRefsEdgesD loc t).flatMap (edgeAppend idx))
              (ihv (Val.float raw) hv)
          | dict es =>
            exact congrArg (fun x => x ++ (scanRefsEdgesD loc t).flatMap (edgeAppend idx))
              (ihv (Val.dict es) hv)
        | false =>
          cases v with
          | list items =>
            exact congrArg (fun x => x ++ (scanRefsEdgesD loc t).flatMap (edgeAppend idx))
              (ihv (Val.list items) hv)
          | pyNone =>
            exact congrArg (fun x => x ++ (scanRefsEdgesD loc t).flatMap (edgeAppend idx))
              (ihv Val.pyNone hv)
          | str ss =>
            exact congrArg (fun x => x ++ (scanRefsEdgesD loc t).flatMap (edgeAppend idx))
              (ihv (Val.str ss) hv)
          | int m =>
            exact congrArg (fun x => x ++ (scanRefsEdgesD loc t).flatMap (edgeAppend idx))
              (ihv (Val.int m) hv)
          | bool b =>
            exact congrArg (fun x => x ++ (scanRefsEdgesD loc t).flatMap (edgeAppend idx))
              (ihv (Val.bool b) hv)
          | float raw =>
            exact congrArg (fun x => x ++ (scanRefsEdgesD loc t).flatMap (edgeAppend idx))
              (ihv (Val.float raw) hv)
          | dict es =>
            exact congrArg (fun x => x ++ (scanRefsEdgesD loc t).flatMap (edgeAppend idx))
              (ihv (Val.dict es) hv)

/-- The `scan_refs` walk over a value is the per-edge append over its
collected edges. -/
theorem scanRefs_hom (idx : DocIndex) (loc : String) (v : Val) :
    scanRefsErrors idx loc v = (scanRefsEdges loc v).flatMap (edgeAppend idx) :=
  (scanRefs_hom_aux idx loc (sizeOf v)).1 v (le_refl _)

/-- The screen table of `ref_map`. -/
theorem refMapKeys_screen (idx : DocIndex) :
    refMapKeys idx ("screen") = some (idx.screens.map (fun kv => kv.1)) := rfl

/-- The component table of `ref_map`. -/
theorem refMapKeys_component (idx : DocIndex) :
    refMapKeys idx ("component") = some (idx.components.map (fun kv => kv.1)) := rfl

/-- The requirement table of `ref_map`. -/
theorem refMapKeys_requirement (idx : DocIndex) :
    refMapKeys idx ("requirement") = some (idx.requirements.map (fun kv => kv.1)) := rfl

/-- The rule table of `ref_map`. -/
theorem refMapKeys_rule (idx : DocIndex) :
    refMapKeys idx ("rule") = some (idx.rules.map (fun kv => kv.1)) := rfl

/-- The flow table of `ref_map`. -/
theorem refMapKeys_flow (idx : DocIndex) :
    refMapKeys idx ("flow") = some (idx.flows.map (fun kv => kv.1)) := rfl

/-- The message table of `ref_map`. -/
theorem refMapKeys_message (idx : DocIndex) :
    refMapKeys idx ("message") = some (idx.messages.map (fun kv => kv.1)) := rfl

/-- `refCheckIf` is simulated by `refEdgeIf`. -/
theorem refCheckIf_hom (idx : DocIndex) (kind loc : String) (r : Val)
    (keys : List String) (hkeys : refMapKeys idx kind = some keys) :
    refCheckIf idx kind loc r =
      (refEdgeIf kind loc r).map (fun es => es.flatMap (edgeAppend idx)) :=
  guarded_ensure_eq_collect idx kind r loc keys hkeys

/-- `refCheckAlways` is simulated by `refEdgeAlways`. -/
theorem refCheckAlways_hom (idx : DocIndex) (kind loc : String) (r : Val)
    (keys : List String) (hkeys : refMapKeys idx kind = some keys) :
    refCheckAlways idx kind loc r =
      (refEdgeAlways kind loc r).map (fun es => es.flatMap (edgeAppend idx)) :=
  ensure_eq_collect idx ⟨kind, r, loc⟩ keys hkeys

/-- `valRefCheck` is simulated by `valRefEdge`. -/
theorem valRefCheck_hom (idx : DocIndex) (loc : String) (v : Val) :
    valRefCheck idx loc v =
      (valRefEdge loc v).map (fun es => es.flatMap (edgeAppend idx)) := by
  simp only [valRefCheck, valRefEdge]
  by_cases h : pyTruthy (validationEntryRef v)
  · rw [if_pos h, if_pos h]
    refine bind_congr_map _ _ _ _ (fun isRN => ?_)
    cases isRN with
    | true =>
      exact ensure_eq_collect idx ⟨("rule"), validationEntryRef v, loc⟩ _
        (refMapKeys_rule idx)
    | false =>
      refine bind_congr_map _ _ _ _ (fun isRF => ?_)
      cases isRF with
      | true =>
        exact ensure_eq_collect idx ⟨("requirement"), validationEntryRef v, loc⟩ _
          (refMapKeys_requirement idx)
      | false => rfl
  · rw [if_neg h, if_neg h]
    rfl

/-- `brefCheck` is simulated by `brefEdge`. -/
theorem brefCheck_hom (idx : DocIndex) (loc : String) (b : Val) :
    brefCheck idx loc b =
      (brefEdge loc b).map (fun es => es.flatMap (edgeAppend idx)) := by
  simp only [brefCheck, brefEdge]
  by_cases h : pyTruthy b
  · rw [if_pos h, if_pos h]
    refine bind_congr_map _ _ _ _ (fun isUC => ?_)
    cases isUC with
    | true => exact ensure_eq_collect idx ⟨("flow"), b, loc⟩ _ (refMapKeys_flow idx)
    | false => rfl
  · rw [if_neg h, if_neg h]
    rfl

/-- `showMsgCheck` is simulated by `showMsgEdge`. -/
theorem showMsgCheck_hom (idx : DocIndex) (loc : String) (act : Val) :
    showMsgCheck idx loc act =
      (showMsgEdge loc act).map (fun es => es.flatMap (edgeAppend idx)) := by
  cases act with
  | dict actd =>
    simp only [showMsgCheck, showMsgEdge]
    cases dictLookup actd ("show_message") with
    | some mid =>
      exact ensure_eq_collect idx ⟨("message"), mid, loc⟩ _ (refMapKeys_message idx)
    | none => rfl
  | pyNone => rfl
  | str s => rfl
  | int n => rfl
  | bool b => rfl
  | float raw => rfl
  | list l => rfl

/-- `altCheck` is simulated by `altEdge`. -/
theorem altCheck_hom (idx : DocIndex) (loc : String) (alt : Val) :
    altCheck idx loc alt =
      (altEdge loc alt).map (fun es => es.flatMap (edgeAppend idx)) := by
  cases alt with
  | dict ad =>
    simp only [altCheck, altEdge]
    refine bind_congr_map _ _ _ _ (fun thens => ?_)
    exact forE_hom (edgeAppend idx) (showMsgCheck idx loc) (showMsgEdge loc) thens
      (fun act _ => showMsgCheck_hom idx loc act)
  | pyNone => rfl
  | str s => rfl
  | int n => rfl
  | bool b => rfl
  | float raw => rfl
  | list l => rfl

/-- The screen pass is simulated by its edge collection. -/
theorem screenErrors_hom (idx : DocIndex) (it : Entity) :
    screenErrors idx it = (screenEdges it).map (fun es => es.flatMap (edgeAppend idx)) := by
  unfold screenErrors screenEdges
  refine bind_congr_map _ _ _ _ (fun comps => ?_)
  refine bind_congr_map _ _ _ _ (fun cs => ?_)
  rw [forE_hom (edgeAppend idx)
      (fun c => refCheckIf idx ("component") it.path (componentEntryId c))
      (fun c => refEdgeIf ("component") it.path (componentEntryId c)) cs
      (fun c _ => refCheckIf_hom idx ("component") it.path (componentEntryId c) _
        (refMapKeys_component idx)),
    map_bind_assoc]
  refine bind_congr_map _ _ _ _ (fun es1 => ?_)
  refine bind_congr_map _ _ _ _ (fun reqs => ?_)
  refine bind_congr_map _ _ _ _ (fun rs => ?_)
  rw [forE_hom (edgeAppend idx) (refCheckIf idx ("requirement") it.path)
      (refEdgeIf ("requirement") it.path) rs
      (fun r _ => refCheckIf_hom idx ("requirement") it.path r _
        (refMapKeys_requirement idx)),
    map_bind_assoc]
  refine bind_congr_map _ _ _ _ (fun es2 => ?_)
  refine bind_congr_map _ _ _ _ (fun ruls => ?_)
  refine bind_congr_map _ _ _ _ (fun rus => ?_)
  rw [forE_hom (edgeAppend idx) (refCheckIf idx ("rule") it.path)
      (refEdgeIf ("rule") it.path) rus
      (fun r _ => refCheckIf_hom idx ("rule") it.path r _ (refMapKeys_rule idx)),
    map_bind_assoc]
  refine bind_congr_map _ _ _ _ (fun es3 => ?_)
  refine bind_congr_map _ _ _ _ (fun fls => ?_)
  refine bind_congr_map _ _ _ _ (fun fs => ?_)
  rw [forE_hom (edgeAppend idx) (refCheckIf idx ("flow") it.path)
      (refEdgeIf ("flow") it.path) fs
      (fun f _ => refCheckIf_hom idx ("flow") it.path f _ (refMapKeys_flow idx)),
    map_bind_assoc]
  refine bind_congr_map _ _ _ _ (fun es4 => ?_)
  show Except.ok _ = Except.map _ (Except.ok _)
  simp [Except.map, List.flatMap_append]

/-- The component pass is simulated by its edge collection. -/
theorem componentErrors_hom (idx : DocIndex) (it : Entity) :
    componentErrors idx it =
      (componentEdges it).map (fun es => es.flatMap (edgeAppend idx)) := by
  unfold componentErrors componentEdges
  refine bind_congr_map _ _ _ _ (fun scr => ?_)
  refine bind_congr_map _ _ _ _ (fun ss => ?_)
  rw [forE_hom (edgeAppend idx) (refCheckIf idx ("screen") it.path)
      (refEdgeIf ("screen") it.path) ss
      (fun x _ => refCheckIf_hom idx ("screen") it.path x _ (refMapKeys_screen idx)),
    map_bind_assoc]
  refine bind_congr_map _ _ _ _ (fun es1 => ?_)
  refine bind_congr_map _ _ _ _ (fun vals => ?_)
  refine bind_congr_map _ _ _ _ (fun vs => ?_)
  rw [forE_hom (edgeAppend idx) (valRefCheck idx it.path) (valRefEdge it.path) vs
      (fun v _ => valRefCheck_hom idx it.path v),
    map_bind_assoc]
  refine bind_congr_map _ _ _ _ (fun es2 => ?_)
  refine bind_congr_map _ _ _ _ (fun brefs => ?_)
  refine bind_congr_map _ _ _ _ (fun bs => ?_)
  rw [forE_hom (edgeAppend idx) (brefCheck idx it.path) (brefEdge it.path) bs
      (fun b _ => brefCheck_hom idx it.path b),
    map_bind_assoc]
  refine bind_congr_map _ _ _ _ (fun es3 => ?_)
  show Except.ok _ = Except.map _ (Except.ok _)
  simp [Except.map, List.flatMap_append]

/-- The requirement pass is simulated by its edge collection. -/
theorem requirementErrors_hom (idx : DocIndex) (it : Entity) :
    requirementErrors idx it =
      (requirementEdges it).map (fun es => es.flatMap (edgeAppend idx)) := by
  unfold requirementErrors requirementEdges
  refine bind_congr_map _ _ _ _ (fun scope0 => ?_)
  refine bind_congr_map _ _ _ _ (fun s => ?_)
  refine bind_congr_map _ _ _ _ (fun c => ?_)
  rw [refCheckIf_hom idx ("screen") it.path s _ (refMapKeys_screen idx),
    map_bind_assoc]
  refine bind_congr_map _ _ _ _ (fun es1 => ?_)
  rw [refCheckIf_hom idx ("component") it.path c _ (refMapKeys_component idx),
    map_bind_assoc]
  refine bind_congr_map _ _ _ _ (fun es2 => ?_)
  refine bind_congr_map _ _ _ _ (fun beh0 => ?_)
  refine bind_congr_map _ _ _ _ (fun alts0 => ?_)
  refine bind_congr_map _ _ _ _ (fun alts => ?_)
  rw [forE_hom (edgeAppend idx) (altCheck idx it.path) (altEdge it.path) alts
      (fun alt _ => altCheck_hom idx it.path alt),
    map_bind_assoc]
  refine bind_congr_map _ _ _ _ (fun es3 => ?_)
  refine bind_congr_map _ _ _ _ (fun links0 => ?_)
  refine bind_congr_map _ _ _ _ (fun lr => ?_)
  refine bind_congr_map _ _ _ _ (fun lrs => ?_)
  rw [forE_hom (edgeAppend idx) (refCheckAlways idx ("rule") it.path)
      (refEdgeAlways ("rule") it.path) lrs
      (fun r _ => refCheckAlways_hom idx ("rule") it.path r _ (refMapKeys_rule idx)),
    map_bind_assoc]
  refine bind_congr_map _ _ _ _ (fun es4 => ?_)
  refine bind_congr_map _ _ _ _ (fun lf => ?_)
  refine bind_congr_map _ _ _ _ (fun lfs => ?_)
  rw [forE_hom (edgeAppend idx) (refCheckAlways idx ("flow") it.path)
      (refEdgeAlways ("flow") it.path) lfs
      (fun r _ => refCheckAlways_hom idx ("flow") it.path r _ (refMapKeys_flow idx)),
    map_bind_assoc]
  refine bind_congr_map _ _ _ _ (fun es5 => ?_)
  refine bind_congr_map _ _ _ _ (fun lm => ?_)
  refine bind_congr_map _ _ _ _ (fun lms => ?_)
  rw [forE_hom (edgeAppend idx) (refCheckAlways idx ("message") it.path)
      (refEdgeAlways ("message") it.path) lms
      (fun r _ => refCheckAlways_hom idx ("message") it.path r _ (refMapKeys_message idx)),
    map_bind_assoc]
  refine bind_congr_map _ _ _ _ (fun es6 => ?_)
  show Except.ok _ = Except.map _ (Except.ok _)
  simp [Except.map, List.flatMap_append]

/-- The rule pass is simulated by its edge collection. -/
theorem ruleErrors_hom (idx : DocIndex) (it : Entity) :
    ruleErrors idx it = (ruleEdges it).map (fun es => es.flatMap (edgeAppend idx)) := by
  unfold ruleErrors ruleEdges
  refine bind_congr_map _ _ _ _ (fun m0 => ?_)
  refine bind_congr_map _ _ _ _ (fun msg => ?_)
  rw [refCheckIf_hom idx ("message") it.path msg _ (refMapKeys_message idx),
    map_bind_assoc]
  refine bind_congr_map _ _ _ _ (fun es1 => ?_)
  refine bind_congr_map _ _ _ _ (fun ap0 => ?_)
  refine bind_congr_map _ _ _ _ (fun as0 => ?_)
  refine bind_congr_map _ _ _ _ (fun asl => ?_)
  rw [forE_hom (edgeAppend idx) (refCheckAlways idx ("screen") it.path)
      (refEdgeAlways ("screen") it.path) asl
      (fun r _ => refCheckAlways_hom idx ("screen") it.path r _ (refMapKeys_screen idx)),
    map_bind_assoc]
  refine bind_congr_map _ _ _ _ (fun es2 => ?_)
  refine bind_congr_map _ _ _ _ (fun ac0 => ?_)
  refine bind_congr_map _ _ _ _ (fun acl => ?_)
  rw [forE_hom (edgeAppend idx) (refCheckAlways idx ("component") it.path)
      (refEdgeAlways ("component") it.path) acl
      (fun r _ => refCheckAlways_hom idx ("component") it.path r _
        (refMapKeys_component idx)),
    map_bind_assoc]
  refine bind_congr_map _ _ _ _ (fun es3 => ?_)
  show Except.ok _ = Except.map _ (Except.ok _)
  simp [Except.map, List.flatMap_append]

/-- The flow pass is simulated by its edge collection. -/
theorem flowErrors_hom (idx : DocIndex) (it : Entity) :
    flowErrors idx it = (flowEdges it).map (fun es => es.flatMap (edgeAppend idx)) := by
  unfold flowErrors flowEdges
  refine bind_congr_map _ _ _ _ (fun t0 => ?_)
  refine bind_congr_map _ _ _ _ (fun s => ?_)
  refine bind_congr_map _ _ _ _ (fun c => ?_)
  rw [refCheckIf_hom idx ("screen") it.path s _ (refMapKeys_screen idx),
    map_bind_assoc]
  refine bind_congr_map _ _ _ _ (fun es1 => ?_)
  rw [refCheckIf_hom idx ("component") it.path c _ (refMapKeys_component idx),
    map_bind_assoc]
  refine bind_congr_map _ _ _ _ (fun es2 => ?_)
  refine bind_congr_map _ _ _ _ (fun mf => ?_)
  refine bind_congr_map _ _ _ _ (fun af => ?_)
  show Except.ok _ = Except.map _ (Except.ok _)
  rw [scanRefs_hom idx it.path (pyOr mf emptyL), scanRefs_hom idx it.path (pyOr af emptyL)]
  simp [Except.map, List.flatMap_append]

/-- `checkScreen` as a map over the screen edge collection. -/
theorem checkScreen_hom (idx : DocIndex) (sid : String) (it : Entity) :
    checkScreen idx sid it = (screenEdges it).map
      (fun es => (validateId ("screen") sid it.path, es.flatMap (edgeAppend idx))) := by
  unfold checkScreen
  rw [screenErrors_hom]
  cases screenEdges it <;> rfl

/-- `checkComponent` as a map over the component edge collection. -/
theorem checkComponent_hom (idx : DocIndex) (cid : String) (it : Entity) :
    checkComponent idx cid it = (componentEdges it).map
      (fun es => (validateId ("component") cid it.path, es.flatMap (edgeAppend idx))) := by
  unfold checkComponent
  rw [componentErrors_hom]
  cases componentEdges it <;> rfl

/-- `checkRequirement` as a map over the requirement edge collection. -/
theorem checkRequirement_hom (idx : DocIndex) (rid : String) (it : Entity) :
    checkRequirement idx rid it = (requirementEdges it).map
      (fun es => (validateId ("requirement") rid it.path, es.flatMap (edgeAppend idx))) := by
  unfold checkRequirement
  rw [requirementErrors_hom]
  cases requirementEdges it <;> rfl

/-- `checkRule` as a map over the rule edge collection. -/
theorem checkRule_hom (idx : DocIndex) (ruid : String) (it : Entity) :
    checkRule idx ruid it = (ruleEdges it).map
      (fun es => (validateId ("rule") ruid it.path, es.flatMap (edgeAppend idx))) := by
  unfold checkRule
  rw [ruleErrors_hom]
  cases ruleEdges it <;> rfl

/-- `checkFlow` as a map over the flow edge collection. -/
theorem checkFlow_hom (idx : DocIndex) (fid : String) (it : Entity) :
    checkFlow idx fid it = (flowEdges it).map
      (fun es => (validateId ("flow") fid it.path, es.flatMap (edgeAppend idx))) := by
  unfold checkFlow
  rw [flowErrors_hom]
  cases flowEdges it <;> rfl

/-- The master simulation: `run_validations` succeeds exactly when the
edge collection succeeds, and then only extends the logs — the warning
log by the identifier warnings of the five validated kinds, the error
log by one line per dangling collected edge, in order. -/
theorem runValidations_eq (idx : DocIndex) :
    runValidations idx = (collectEdges idx).map (fun es =>
      { idx with
        errors := idx.errors ++ es.flatMap (edgeAppend idx),
        warnings := idx.warnings ++ idWarnings idx }) := by
  unfold runValidations collectEdges
  rw [forWE_hom (edgeAppend idx) (fun kv => validateId ("screen") kv.1 kv.2.path)
      (fun kv => checkScreen idx kv.1 kv.2) (fun kv => screenEdges kv.2) idx.screens
      (fun kv _ => checkScreen_hom idx kv.1 kv.2),
    map_bind_assoc]
  refine bind_congr_map _ _ _ _ (fun es1 => ?_)
  rw [forWE_hom (edgeAppend idx) (fun kv => validateId ("component") kv.1 kv.2.path)
      (fun kv => checkComponent idx kv.1 kv.2) (fun kv => componentEdges kv.2) idx.components
      (fun kv _ => checkComponent_hom idx kv.1 kv.2),
    map_bind_assoc]
  refine bind_congr_map _ _ _ _ (fun es2 => ?_)
  rw [forWE_hom (edgeAppend idx) (fun kv => validateId ("requirement") kv.1 kv.2.path)
      (fun kv => checkRequirement idx kv.1 kv.2) (fun kv => requirementEdges kv.2) idx.requirements
      (fun kv _ => checkRequirement_hom idx kv.1 kv.2),
    map_bind_assoc]
  refine bind_congr_map _ _ _ _ (fun es3 => ?_)
  rw [forWE_hom (edgeAppend idx) (fun kv => validateId ("rule") kv.1 kv.2.path)
      (fun kv => checkRule idx kv.1 kv.2) (fun kv => ruleEdges kv.2) idx.rules
      (fun kv _ => checkRule_hom idx kv.1 kv.2),
    map_bind_assoc]
  refine bind_congr_map _ _ _ _ (fun es4 => ?_)
  rw [forWE_hom (edgeAppend idx) (fun kv => validateId ("flow") kv.1 kv.2.path)
      (fun kv => checkFlow idx kv.1 kv.2) (fun kv => flowEdges kv.2) idx.flows
      (fun kv _ => checkFlow_hom idx kv.1 kv.2),
    map_bind_assoc]
  refine bind_congr_map _ _ _ _ (fun es5 => ?_)
  show Except.ok _ = Except.map _ (Except.ok _)
  simp [Except.map, List.flatMap_append, idWarnings]

/-- `str()` of a Python string is the string itself. -/
theorem pyStr_str (s : String) : pyStr (Val.str s) = s := by
  simp [pyStr, valDepth, pyStrF]

/-- The dangling-reference error line contains the referencing
location. -/
theorem refErrMsg_has_loc (e : RefEdge) :
    List.IsInfix e.loc.data (refErrMsg e).data := by
  refine ⟨((("[ref] ") ++ e.kind ++ (" ") ++ aposS ++ pyStr e.ref ++ aposS ++
    (" não encontrado. Referenciado em ")) : String).data, [], ?_⟩
  simp [refErrMsg, String.data_append]

/-- The dangling-reference error line contains the referenced (string)
identifier. -/
theorem refErrMsg_has_ref (e : RefEdge) (r : String) (hr : e.ref = Val.str r) :
    List.IsInfix r.data (refErrMsg e).data := by
  refine ⟨((("[ref] ") ++ e.kind ++ (" ") ++ aposS) : String).data,
    ((aposS ++ (" não encontrado. Referenciado em ") ++ e.loc) : String).data, ?_⟩
  simp [refErrMsg, String.data_append, hr, pyStr_str]

/-- Claim C1: when the validation pass completes, the error lines it
appends are exactly one line per collected relationship edge whose
target identifier is absent from the table of the edge's kind — and no
line for an edge whose target is present; each such line names both the
referencing entity's path and the target identifier. -/
theorem c1_dangling_refs (idx idx2 : DocIndex)
    (h : runValidations idx = Except.ok idx2) :
    ∃ es, collectEdges idx = Except.ok es ∧
      idx2.errors = idx.errors ++ es.flatMap (edgeAppend idx) ∧
      ∀ e ∈ es,
        (∀ keys, refMapKeys idx e.kind = some keys →
          (keyMem keys e.ref = true → edgeAppend idx e = []) ∧
          (keyMem keys e.ref = false → edgeAppend idx e = [refErrMsg e])) ∧
        List.IsInfix e.loc.data (refErrMsg e).data ∧
        (∀ r, e.ref = Val.str r → List.IsInfix r.data (refErrMsg e).data) := by
  rw [runValidations_eq] at h
  cases hc : collectEdges idx with
  | error err => rw [hc] at h; exact absurd h (by simp [Except.map])
  | ok es =>
    rw [hc] at h
    refine ⟨es, rfl, ?_, ?_⟩
    · have h2 : ({ idx with
          errors := idx.errors ++ es.flatMap (edgeAppend idx),
          warnings := idx.warnings ++ idWarnings idx } : DocIndex) = idx2 := by
        simpa [Except.map] using h
      rw [← h2]
    · intro e _
      refine ⟨?_, refErrMsg_has_loc e, fun r hr => refErrMsg_has_ref e r hr⟩
      intro keys hkeys
      constructor
      · intro hmem
        simp [edgeAppend, hkeys, hmem]
      · intro hmem
        simp [edgeAppend, hkeys, hmem]

/-- The concrete index for the C1 witness: one screen at path `pa`
listing an existing component `BTN_X` and a dangling component
`BTN_MISSING`. -/
def c1IdxA : DocIndex :=
  ⟨[(("TELA_A"), ⟨("pa"), Val.dict
      [(("id"), Val.str ("TELA_A")),
       (("components"), Val.list [Val.str ("BTN_X"), Val.str ("BTN_MISSING")])]⟩)],
   [(("BTN_X"), ⟨("pb"), Val.dict [(("id"), Val.str ("BTN_X"))]⟩)],
   [], [], [], [], [], []⟩

/-- The index produced by the validation pass on `c1IdxA`. -/
def c1IdxB : DocIndex :=
  { c1IdxA with
    errors := [refErrMsg ⟨("component"), Val.str ("BTN_MISSING"), ("pa")⟩],
    warnings := [] }

/-- Witness for `c1_dangling_refs` on the concrete index `c1IdxA`. -/
theorem c1_dangling_refs_witness :
    ∃ es, collectEdges c1IdxA = Except.ok es ∧
      c1IdxB.errors = c1IdxA.errors ++ es.flatMap (edgeAppend c1IdxA) ∧
      ∀ e ∈ es,
        (∀ keys, refMapKeys c1IdxA e.kind = some keys →
          (keyMem keys e.ref = true → edgeAppend c1IdxA e = []) ∧
          (keyMem keys e.ref = false → edgeAppend c1IdxA e = [refErrMsg e])) ∧
        List.IsInfix e.loc.data (refErrMsg e).data ∧
        (∀ r, e.ref = Val.str r → List.IsInfix r.data (refErrMsg e).data) :=
  c1_dangling_refs c1IdxA c1IdxB (by rfl)

/-- Claim C4, counterexample: a component document whose `validations`
list contains the integer `5` — a value the simple YAML loader happily
produces — makes `run_validations` raise `AttributeError` (Python
evaluates `5 .startswith("RN-")`), so building the index aborts with an
exception instead of logging a finding. -/
theorem c4_counterexample :
    ∃ msg, indexDocs ⟨[],
        [(("c/BTN_A.yml"), ("id: BTN_A\nvalidations:\n  - 5\n"))],
        [], [], []⟩ =
      Except.error (PyErr.attributeError msg) :=
  ⟨_, rfl⟩

/-- Claim C4, amended: the validation pass completes without raising
exactly when the pure edge collection over the declared relationship
fields encounters only expected shapes; in particular success depends
only on the shapes of the entity data, never on which references
resolve, and on success all five per-kind passes run to completion with
findings only appended to the logs (`runValidations_eq`). -/
theorem c4_no_exception_iff (idx : DocIndex) :
    (∃ idx2, runValidations idx = Except.ok idx2) ↔
      (∃ es, collectEdges idx = Except.ok es) := by
  rw [runValidations_eq]
  cases collectEdges idx with
  | error e => simp [Except.map]
  | ok es => simp [Except.map]

/-- Claim C5, counterexample: an indexed message whose id `bad msg id`
matches no identifier pattern produces no warning at all — the
validation pass never checks message identifiers. -/
theorem c5_counterexample :
    ∃ idx2,
      runValidations ⟨[], [], [], [], [], [(("bad msg id"), Val.dict [])], [], []⟩ =
        Except.ok idx2 ∧ idx2.warnings = [] :=
  ⟨_, rfl, rfl⟩

/-- Claim C5, amended: when the validation pass completes, the warning
lines it appends are exactly, in order, one warning per entity of the
five validated kinds (screens, components, requirements, rules, flows)
whose id fails its kind's pattern, each naming the kind, the id and the
location; message-table identifiers are never checked. -/
theorem c5_id_warnings (idx idx2 : DocIndex)
    (h : runValidations idx = Except.ok idx2) :
    idx2.warnings = idx.warnings ++ idWarnings idx ∧
    ∀ kind id loc pat, idPattern kind = some pat →
      (pat id.data = true → validateId kind id loc = []) ∧
      (pat id.data = false →
        validateId kind id loc = [idWarnMsg kind id loc] ∧
        List.IsInfix kind.data (idWarnMsg kind id loc).data ∧
        List.IsInfix id.data (idWarnMsg kind id loc).data ∧
        List.IsInfix loc.data (idWarnMsg kind id loc).data) := by
  rw [runValidations_eq] at h
  constructor
  · cases hc : collectEdges idx with
    | error err => rw [hc] at h; exact absurd h (by simp [Except.map])
    | ok es =>
      rw [hc] at h
      have h2 : ({ idx with
          errors := idx.errors ++ es.flatMap (edgeAppend idx),
          warnings := idx.warnings ++ idWarnings idx } : DocIndex) = idx2 := by
        simpa [Except.map] using h
      rw [← h2]
  · intro kind id loc pat hpat
    constructor
    · intro hmatch
      simp [validateId, hpat, hmatch]
    · intro hmatch
      refine ⟨by simp [validateId, hpat, hmatch], ?_, ?_, ?_⟩
      · exact ⟨(("[id] ") : String).data,
          (((" id ") ++ aposS ++ id ++ aposS ++ (" fora do padrão em ") ++ loc) : String).data,
          by simp [idWarnMsg, String.data_append]⟩
      · exact ⟨((("[id] ") ++ kind ++ (" id ") ++ aposS) : String).data,
          ((aposS ++ (" fora do padrão em ") ++ loc) : String).data,
          by simp [idWarnMsg, String.data_append]⟩
      · exact ⟨((("[id] ") ++ kind ++ (" id ") ++ aposS ++ id ++ aposS ++
            (" fora do padrão em ")) : String).data, [],
          by simp [idWarnMsg, String.data_append]⟩

/-- The concrete index for the C5 witness: one rule with the
non-conforming id `reg-01` and no references. -/
def c5Idx : DocIndex :=
  ⟨[], [], [],
   [(("reg-01"), ⟨("pr"), Val.dict [(("id"), Val.str ("reg-01"))]⟩)],
   [], [], [], []⟩

/-- The index produced by the validation pass on `c5Idx`. -/
def c5Idx2 : DocIndex :=
  { c5Idx with
    errors := [],
    warnings := [idWarnMsg ("rule") ("reg-01") ("pr")] }

/-- Witness for `c5_id_warnings` on the concrete index `c5Idx`. -/
theorem c5_id_warnings_witness :
    c5Idx2.warnings = c5Idx.warnings ++ idWarnings c5Idx ∧
    ∀ kind id loc pat, idPattern kind = some pat →
      (pat id.data = true → validateId kind id loc = []) ∧
      (pat id.data = false →
        validateId kind id loc = [idWarnMsg kind id loc] ∧
        List.IsInfix kind.data (idWarnMsg kind id loc).data ∧
        List.IsInfix id.data (idWarnMsg kind id loc).data ∧
        List.IsInfix loc.data (idWarnMsg kind id loc).data) :=
  c5_id_warnings c5Idx c5Idx2 (by rfl)

/-! ## Claims about the entity loader -/

/-- Bind of a successful computation. -/
theorem exBind_ok {α β : Type} (a : α) (k : α → Except PyErr β) :
    (do let x ← Except.ok a; k x) = k a := rfl

/-- Bind of a raised exception. -/
theorem exBind_err {α β : Type} (e : PyErr) (k : α → Except PyErr β) :
    (do let x ← (Except.error e : Except PyErr α); k x) = Except.error e := rfl

/-- Members of a dict after insertion: the inserted pair or an original
member. -/
theorem dictIns_mem {α : Type} (l : List (String × α)) (k : String) (v : α)
    (kv : String × α) (h : kv ∈ dictIns l k v) : kv = (k, v) ∨ kv ∈ l := by
  induction l with
  | nil => simpa [dictIns] using h
  | cons y t ih =>
    obtain ⟨k0, v0⟩ := y
    simp only [dictIns] at h
    by_cases hk : (k0 == k) = true
    · rw [if_pos hk] at h
      rcases List.mem_cons.mp h with h1 | h1
      · left
        rw [h1, (by simpa using hk : k0 = k)]
      · right
        exact List.mem_cons_of_mem _ h1
    · rw [if_neg hk] at h
      rcases List.mem_cons.mp h with h1 | h1
      · right
        rw [h1]
        exact List.mem_cons_self _ _
      · rcases ih h1 with h2 | h2
        · exact Or.inl h2
        · exact Or.inr (List.mem_cons_of_mem _ h2)

/-- The error lines contributed to the load log by one plain document
file (component, requirement, rule or flow): one `missing id` line when
the parsed id is blank, nothing otherwise (and nothing when parsing
itself raises, in which case the whole run aborts anyway). -/
def plainErrLines (kind : String) (f : String × String) : List String :=
  match loadSimpleYaml f.2 with
  | Except.error _ => []
  | Except.ok data =>
    match docIdOf data with
    | Except.error _ => []
    | Except.ok sid => if sid = "" then [missingIdMsg kind f.1] else []

/-- The error lines contributed by one screen folder (its optional
`messages.yml` never contributes an error line). -/
def screenErrLines (f : ScreenSrc) : List String :=
  match loadSimpleYaml f.text with
  | Except.error _ => []
  | Except.ok data =>
    match docIdOf data with
    | Except.error _ => []
    | Except.ok sid => if sid = "" then [missingIdMsg ("screen") f.path] else []

/-- Characterisation of the plain loading loop: on success the error
log is extended by exactly the per-file `missing id` lines in file
order, and every table entry is an original one or keyed by the
(non-blank) stripped id of its own parsed document. -/
theorem loadPlain_spec (kind : String) (files : List (String × String)) :
    ∀ (tab : List (String × Entity)) (errs : List String) tab2 errs2,
      loadPlain kind files tab errs = Except.ok (tab2, errs2) →
      errs2 = errs ++ files.flatMap (plainErrLines kind) ∧
      ∀ kv, kv ∈ tab2 → kv ∈ tab ∨
        (kv.1 ≠ "" ∧ ∃ f, f ∈ files ∧ ∃ data,
          loadSimpleYaml f.2 = Except.ok data ∧ docIdOf data = Except.ok kv.1 ∧
          kv.2 = ⟨f.1, data⟩) := by
  induction files with
  | nil =>
    intro tab errs tab2 errs2 h
    simp only [loadPlain, Except.ok.injEq, Prod.mk.injEq] at h
    obtain ⟨h1, h2⟩ := h
    subst h1
    subst h2
    exact ⟨by simp, fun kv hkv => Or.inl hkv⟩
  | cons f t ih =>
    intro tab errs tab2 errs2 h
    simp only [loadPlain] at h
    cases hload : loadSimpleYaml f.2 with
    | error e => rw [hload, exBind_err] at h; simp at h
    | ok data =>
      rw [hload, exBind_ok] at h
      cases hid : docIdOf data with
      | error e => rw [hid, exBind_err] at h; simp at h
      | ok sid =>
        rw [hid, exBind_ok] at h
        by_cases hsid : sid = ""
        · rw [if_pos hsid] at h
          obtain ⟨he, hm⟩ := ih _ _ _ _ h
          constructor
          · rw [he]
            simp [plainErrLines, hload, hid, hsid]
          · intro kv hkv
            rcases hm kv hkv with h1 | ⟨h1, g, hg, rest⟩
            · exact Or.inl h1
            · exact Or.inr ⟨h1, g, List.mem_cons_of_mem _ hg, rest⟩
        · rw [if_neg hsid] at h
          obtain ⟨he, hm⟩ := ih _ _ _ _ h
          constructor
          · rw [he]
            simp [plainErrLines, hload, hid, hsid]
          · intro kv hkv
            rcases hm kv hkv with h1 | ⟨h1, g, hg, rest⟩
            · rcases dictIns_mem _ _ _ _ h1 with h2 | h2
              · refine Or.inr ⟨?_, f, List.mem_cons_self _ _, data, hload, ?_, ?_⟩
                · rw [h2]
                  exact hsid
                · rw [h2]
                  exact hid
                · rw [h2]
              · exact Or.inl h2
            · exact Or.inr ⟨h1, g, List.mem_cons_of_mem _ hg, rest⟩

/-- Characterisation of the message collection loop: it never logs
anything, and every new message-table entry is keyed by the non-blank
stripped id of its own message object. -/
theorem loadMsgItems_spec (items : List Val) :
    ∀ msgs msgs2, loadMsgItems items msgs = Except.ok msgs2 →
      ∀ kv, kv ∈ msgs2 → kv ∈ msgs ∨
        (kv.1 ≠ "" ∧ ∃ v, pyGetD kv.2 (("id")) (Val.str ("")) = Except.ok v ∧
          kv.1 = pyStrip (pyStr v)) := by
  induction items with
  | nil =>
    intro msgs msgs2 h
    simp only [loadMsgItems, Except.ok.injEq] at h
    subst h
    exact fun kv hkv => Or.inl hkv
  | cons m t ih =>
    intro msgs msgs2 h
    simp only [loadMsgItems] at h
    cases hv : pyGetD m (("id")) (Val.str ("")) with
    | error e => rw [hv, exBind_err] at h; simp at h
    | ok v =>
      rw [hv, exBind_ok] at h
      intro kv hkv
      rcases ih _ _ h kv hkv with h1 | h1
      · by_cases hmid : pyStrip (pyStr v) = ""
        · rw [if_pos hmid] at h1
          exact Or.inl h1
        · rw [if_neg hmid] at h1
          rcases dictIns_mem _ _ _ _ h1 with h2 | h2
          · refine Or.inr ⟨?_, v, ?_, ?_⟩
            · rw [h2]
              exact hmid
            · rw [h2]
              exact hv
            · rw [h2]
          · exact Or.inl h2
      · exact Or.inr h1

/-- Characterisation of the `messages.yml` processing: it never logs
anything, and every new message-table entry is keyed by the non-blank
stripped id of its own message object. -/
theorem loadScreenMsgs_spec (om : Option String) (msgs msgs2 : List (String × Val))
    (h : loadScreenMsgs om msgs = Except.ok msgs2) :
    ∀ kv, kv ∈ msgs2 → kv ∈ msgs ∨
      (kv.1 ≠ "" ∧ ∃ v, pyGetD kv.2 (("id")) (Val.str ("")) = Except.ok v ∧
        kv.1 = pyStrip (pyStr v)) := by
  cases om with
  | none =>
    simp only [loadScreenMsgs, Except.ok.injEq] at h
    subst h
    exact fun kv hkv => Or.inl hkv
  | some mtext =>
    simp only [loadScreenMsgs] at h
    cases hm0 : loadSimpleYaml mtext with
    | error e => rw [hm0, exBind_err] at h; simp at h
    | ok mdata =>
      rw [hm0, exBind_ok] at h
      cases hml : pyGet mdata (("messages")) with
      | error e => rw [hml, exBind_err] at h; simp at h
      | ok mlist =>
        rw [hml, exBind_ok] at h
        cases hit : pyIter (pyOr mlist emptyL) with
        | error e => rw [hit, exBind_err] at h; simp at h
        | ok items =>
          rw [hit, exBind_ok] at h
          exact loadMsgItems_spec items msgs msgs2 h

/-- Characterisation of the screen loading loop: on success the error
log is extended by exactly the per-folder `missing id` lines (the
optional `messages.yml` contributes none), every screen-table entry is
keyed by the non-blank stripped id of its own parsed document, and
every message-table entry by the non-blank stripped id of its own
message object. -/
theorem loadScreens_spec (files : List ScreenSrc) :
    ∀ tab msgs errs tab2 msgs2 errs2,
      loadScreens files tab msgs errs = Except.ok (tab2, msgs2, errs2) →
      errs2 = errs ++ files.flatMap screenErrLines ∧
      (∀ kv, kv ∈ tab2 → kv ∈ tab ∨
        (kv.1 ≠ "" ∧ ∃ f, f ∈ files ∧ ∃ data,
          loadSimpleYaml f.text = Except.ok data ∧ docIdOf data = Except.ok kv.1 ∧
          kv.2 = ⟨f.path, data⟩)) ∧
      (∀ kv, kv ∈ msgs2 → kv ∈ msgs ∨
        (kv.1 ≠ "" ∧ ∃ v, pyGetD kv.2 (("id")) (Val.str ("")) = Except.ok v ∧
          kv.1 = pyStrip (pyStr v))) := by
  induction files with
  | nil =>
    intro tab msgs errs tab2 msgs2 errs2 h
    simp only [loadScreens, Except.ok.injEq, Prod.mk.injEq] at h
    obtain ⟨h1, h2, h3⟩ := h
    subst h1
    subst h2
    subst h3
    exact ⟨by simp, fun kv hkv => Or.inl hkv, fun kv hkv => Or.inl hkv⟩
  | cons f t ih =>
    intro tab msgs errs tab2 msgs2 errs2 h
    simp only [loadScreens] at h
    cases hload : loadSimpleYaml f.text with
    | error e => rw [hload, exBind_err] at h; simp at h
    | ok data =>
      rw [hload, exBind_ok] at h
      cases hid : docIdOf data with
      | error e => rw [hid, exBind_err] at h; simp at h
      | ok sid =>
        rw [hid, exBind_ok] at h
        by_cases hsid : sid = ""
        · rw [if_pos hsid] at h
          obtain ⟨he, hm, hmm2⟩ := ih _ _ _ _ _ _ h
          refine ⟨?_, ?_, hmm2⟩
          · rw [he]
            simp [screenErrLines, hload, hid, hsid]
          · intro kv hkv
            rcases hm kv hkv with h1 | ⟨h1, g, hg, rest⟩
            · exact Or.inl h1
            · exact Or.inr ⟨h1, g, List.mem_cons_of_mem _ hg, rest⟩
        · rw [if_neg hsid] at h
          have htabmem : ∀ kv : String × Entity,
              kv ∈ dictIns tab sid ⟨f.path, data⟩ → kv ∈ tab ∨
                (kv.1 ≠ "" ∧ ∃ g, g ∈ f :: t ∧ ∃ d2,
                  loadSimpleYaml g.text = Except.ok d2 ∧ docIdOf d2 = Except.ok kv.1 ∧
                  kv.2 = ⟨g.path, d2⟩) := by
            intro kv h1
            rcases dictIns_mem _ _ _ _ h1 with h2 | h2
            · refine Or.inr ⟨?_, f, List.mem_cons_self _ _, data, hload, ?_, ?_⟩
              · rw [h2]
                exact hsid
              · rw [h2]
                exact hid
              · rw [h2]
            · exact Or.inl h2
          cases hms : loadScreenMsgs f.msgs msgs with
          | error e => rw [hms, exBind_err] at h; simp at h
          | ok msgsMid =>
            rw [hms, exBind_ok] at h
            obtain ⟨he, hm, hmm2⟩ := ih _ _ _ _ _ _ h
            refine ⟨?_, ?_, ?_⟩
            · rw [he]
              simp [screenErrLines, hload, hid, hsid]
            · intro kv hkv
              rcases hm kv hkv with h1 | ⟨h1, g, hg, rest⟩
              · exact htabmem kv h1
              · exact Or.inr ⟨h1, g, List.mem_cons_of_mem _ hg, rest⟩
            · intro kv hkv
              rcases hmm2 kv hkv with h1 | h1
              · exact loadScreenMsgs_spec f.msgs msgs msgsMid hms kv h1
              · exact Or.inr h1

/-- Characterisation of the whole loading phase: the load-time error
log is exactly the concatenation of the per-file `missing id` lines in
load order (screens, components, requirements, rules, flows), and every
table entry of every kind is keyed by the non-blank stripped string of
its own document's `id` field. -/
theorem loadDocs_spec (fs : FSys) (idx : DocIndex)
    (h : loadDocs fs = Except.ok idx) :
    idx.errors = fs.screens.flatMap screenErrLines ++
      (fs.components.flatMap (plainErrLines ("component")) ++
      (fs.requirements.flatMap (plainErrLines ("requirement")) ++
      (fs.rules.flatMap (plainErrLines ("rule")) ++
       fs.flows.flatMap (plainErrLines ("flow"))))) ∧
    (∀ kv, kv ∈ idx.screens → kv.1 ≠ "" ∧ docIdOf kv.2.data = Except.ok kv.1) ∧
    (∀ kv, kv ∈ idx.components → kv.1 ≠ "" ∧ docIdOf kv.2.data = Except.ok kv.1) ∧
    (∀ kv, kv ∈ idx.requirements → kv.1 ≠ "" ∧ docIdOf kv.2.data = Except.ok kv.1) ∧
    (∀ kv, kv ∈ idx.rules → kv.1 ≠ "" ∧ docIdOf kv.2.data = Except.ok kv.1) ∧
    (∀ kv, kv ∈ idx.flows → kv.1 ≠ "" ∧ docIdOf kv.2.data = Except.ok kv.1) ∧
    (∀ kv, kv ∈ idx.messages → kv.1 ≠ "" ∧
      ∃ v, pyGetD kv.2 (("id")) (Val.str ("")) = Except.ok v ∧
        kv.1 = pyStrip (pyStr v)) ∧
    idx.warnings = [] := by
  simp only [loadDocs] at h
  cases hs : loadScreens fs.screens [] [] [] with
  | error e => rw [hs, exBind_err] at h; simp at h
  | ok s3 =>
    obtain ⟨stab, smsgs, serrs⟩ := s3
    rw [hs, exBind_ok] at h
    cases hc : loadPlain ("component") fs.components [] serrs with
    | error e => rw [hc, exBind_err] at h; simp at h
    | ok c2 =>
      obtain ⟨ctab, cerrs⟩ := c2
      rw [hc, exBind_ok] at h
      cases hr : loadPlain ("requirement") fs.requirements [] cerrs with
      | error e => rw [hr, exBind_err] at h; simp at h
      | ok r2 =>
        obtain ⟨rtab, rerrs⟩ := r2
        rw [hr, exBind_ok] at h
        cases hru : loadPlain ("rule") fs.rules [] rerrs with
        | error e => rw [hru, exBind_err] at h; simp at h
        | ok ru2 =>
          obtain ⟨rutab, ruerrs⟩ := ru2
          rw [hru, exBind_ok] at h
          cases hfl : loadPlain ("flow") fs.flows [] ruerrs with
          | error e => rw [hfl, exBind_err] at h; simp at h
          | ok fl2 =>
            obtain ⟨fltab, flerrs⟩ := fl2
            rw [hfl, exBind_ok] at h
            simp only [Except.ok.injEq] at h
            subst h
            obtain ⟨hse, hsm, hsm2⟩ := loadScreens_spec fs.screens [] [] [] _ _ _ hs
            obtain ⟨hce, hcm⟩ := loadPlain_spec ("component") fs.components [] serrs _ _ hc
            obtain ⟨hre, hrm⟩ := loadPlain_spec ("requirement") fs.requirements [] cerrs _ _ hr
            obtain ⟨hrue, hrum⟩ := loadPlain_spec ("rule") fs.rules [] rerrs _ _ hru
            obtain ⟨hfle, hflm⟩ := loadPlain_spec ("flow") fs.flows [] ruerrs _ _ hfl
            refine ⟨?_, ?_, ?_, ?_, ?_, ?_, ?_, rfl⟩
            · rw [hfle, hrue, hre, hce, hse]
              simp [List.append_assoc]
            · intro kv hkv
              rcases hsm kv hkv with h1 | ⟨h1, g, _, data, _, hdoc, hkv2⟩
              · exact absurd h1 (List.not_mem_nil kv)
              · refine ⟨h1, ?_⟩
                rw [hkv2]
                exact hdoc
            · intro kv hkv
              rcases hcm kv hkv with h1 | ⟨h1, g, _, data, _, hdoc, hkv2⟩
              · exact absurd h1 (List.not_mem_nil kv)
              · refine ⟨h1, ?_⟩
                rw [hkv2]
                exact hdoc
            · intro kv hkv
              rcases hrm kv hkv with h1 | ⟨h1, g, _, data, _, hdoc, hkv2⟩
              · exact absurd h1 (List.not_mem_nil kv)
              · refine ⟨h1, ?_⟩
                rw [hkv2]
                exact hdoc
            · intro kv hkv
              rcases hrum kv hkv with h1 | ⟨h1, g, _, data, _, hdoc, hkv2⟩
              · exact absurd h1 (List.not_mem_nil kv)
              · refine ⟨h1, ?_⟩
                rw [hkv2]
                exact hdoc
            · intro kv hkv
              rcases hflm kv hkv with h1 | ⟨h1, g, _, data, _, hdoc, hkv2⟩
              · exact absurd h1 (List.not_mem_nil kv)
              · refine ⟨h1, ?_⟩
                rw [hkv2]
                exact hdoc
            · intro kv hkv
              rcases hsm2 kv hkv with h1 | h1
              · exact absurd h1 (List.not_mem_nil kv)
              · exact h1

/-- Claim C2, counterexample: a message object without an `id` in a
screen's `messages.yml` is skipped silently — the load succeeds with an
empty error log and an empty message table, with no error naming the
document, contrary to the claim that every loaded entity kind logs a
`missing id` error. -/
theorem c2_counterexample :
    ∃ idx, loadDocs ⟨[⟨("s/screen.yml"), ("id: TELA_A\n"),
        some ("messages:\n  - text: hi\n")⟩], [], [], [], []⟩ = Except.ok idx ∧
      idx.errors = [] ∧ idx.messages = [] :=
  ⟨_, rfl, rfl, rfl⟩

/-- Claim C2, amended: for the five document kinds (screen, component,
requirement, rule, flow) a document whose `id` is missing or blank is
excluded from its table and contributes exactly one error line
containing the document path; the load-time error log is exactly these
lines in load order.  Message objects with a missing or blank id are
also excluded, but silently: they never contribute an error line. -/
theorem c2_missing_id (fs : FSys) (idx : DocIndex)
    (h : loadDocs fs = Except.ok idx) :
    idx.errors = fs.screens.flatMap screenErrLines ++
      (fs.components.flatMap (plainErrLines ("component")) ++
      (fs.requirements.flatMap (plainErrLines ("requirement")) ++
      (fs.rules.flatMap (plainErrLines ("rule")) ++
       fs.flows.flatMap (plainErrLines ("flow"))))) ∧
    (∀ (kind : String) (f : String × String) (data : Val) (sid : String),
      loadSimpleYaml f.2 = Except.ok data → docIdOf data = Except.ok sid →
      (sid = "" → plainErrLines kind f = [missingIdMsg kind f.1]) ∧
      (sid ≠ "" → plainErrLines kind f = [])) ∧
    (∀ (f : ScreenSrc) (data : Val) (sid : String),
      loadSimpleYaml f.text = Except.ok data → docIdOf data = Except.ok sid →
      (sid = "" → screenErrLines f = [missingIdMsg ("screen") f.path]) ∧
      (sid ≠ "" → screenErrLines f = [])) ∧
    (∀ kind path, List.IsInfix path.data (missingIdMsg kind path).data) ∧
    (∀ kv, kv ∈ idx.screens → kv.1 ≠ "") ∧
    (∀ kv, kv ∈ idx.components → kv.1 ≠ "") ∧
    (∀ kv, kv ∈ idx.requirements → kv.1 ≠ "") ∧
    (∀ kv, kv ∈ idx.rules → kv.1 ≠ "") ∧
    (∀ kv, kv ∈ idx.flows → kv.1 ≠ "") ∧
    (∀ kv, kv ∈ idx.messages → kv.1 ≠ "") := by
  obtain ⟨he, h1, h2, h3, h4, h5, h6, _⟩ := loadDocs_spec fs idx h
  refine ⟨he, ?_, ?_, ?_,
    fun kv hkv => (h1 kv hkv).1, fun kv hkv => (h2 kv hkv).1,
    fun kv hkv => (h3 kv hkv).1, fun kv hkv => (h4 kv hkv).1,
    fun kv hkv => (h5 kv hkv).1, fun kv hkv => (h6 kv hkv).1⟩
  · intro kind f data sid hload hid
    constructor
    · intro hsid
      simp [plainErrLines, hload, hid, hsid]
    · intro hsid
      simp [plainErrLines, hload, hid, hsid]
  · intro f data sid hload hid
    constructor
    · intro hsid
      simp [screenErrLines, hload, hid, hsid]
    · intro hsid
      simp [screenErrLines, hload, hid, hsid]
  · intro kind path
    exact ⟨((("[") ++ kind ++ ("] missing id in ")) : String).data, [],
      by simp [missingIdMsg, String.data_append]⟩

/-- Witness for `c2_missing_id` on a corpus with one component file
whose document has no `id` field. -/
theorem c2_missing_id_witness :
    (⟨[], [], [], [], [], [], [missingIdMsg ("component") ("pc")], []⟩ : DocIndex).errors =
      ([] : List ScreenSrc).flatMap screenErrLines ++
      ([(("pc"), ("name: x\n"))].flatMap (plainErrLines ("component")) ++
      ([].flatMap (plainErrLines ("requirement")) ++
      ([].flatMap (plainErrLines ("rule")) ++
       ([] : List (String × String)).flatMap (plainErrLines ("flow"))))) :=
  (c2_missing_id ⟨[], [(("pc"), ("name: x\n"))], [], [], []⟩
    ⟨[], [], [], [], [], [], [missingIdMsg ("component") ("pc")], []⟩ (by rfl)).1

/-- Claim C6, counterexample: a rule document declaring `id: " X "`
(a quoted string with surrounding spaces) is inserted under the key
`X`, which is not equal to the entity's own `id` field value `" X "` —
the table key is the stripped string conversion of the field, not the
field value itself. -/
theorem c6_counterexample :
    ∃ idx, loadDocs ⟨[], [], [], [(("p"), ("id: \" X \"\n"))], []⟩ = Except.ok idx ∧
      (∃ ent, idx.rules = [(("X"), ent)] ∧
        pyGetD ent.data (("id")) (Val.str ("")) = Except.ok (Val.str (" X "))) ∧
      ("X" : String) ≠ (" X ") :=
  ⟨_, rfl, ⟨_, rfl, rfl⟩, by decide⟩

/-- Claim C6, amended: in every index produced by a load pass, every
key of each per-kind table equals the *stripped string conversion* of
that entity's own `id` field (`str(data.get("id", "")).strip()`, i.e.
`docIdOf`), and an entity whose id is missing or converts to the empty
string is never inserted into any table. -/
theorem c6_table_keys (fs : FSys) (idx : DocIndex)
    (h : loadDocs fs = Except.ok idx) :
    (∀ kv, kv ∈ idx.screens → kv.1 ≠ "" ∧ docIdOf kv.2.data = Except.ok kv.1) ∧
    (∀ kv, kv ∈ idx.components → kv.1 ≠ "" ∧ docIdOf kv.2.data = Except.ok kv.1) ∧
    (∀ kv, kv ∈ idx.requirements → kv.1 ≠ "" ∧ docIdOf kv.2.data = Except.ok kv.1) ∧
    (∀ kv, kv ∈ idx.rules → kv.1 ≠ "" ∧ docIdOf kv.2.data = Except.ok kv.1) ∧
    (∀ kv, kv ∈ idx.flows → kv.1 ≠ "" ∧ docIdOf kv.2.data = Except.ok kv.1) ∧
    (∀ kv, kv ∈ idx.messages → kv.1 ≠ "" ∧
      ∃ v, pyGetD kv.2 (("id")) (Val.str ("")) = Except.ok v ∧
        kv.1 = pyStrip (pyStr v)) := by
  obtain ⟨_, h1, h2, h3, h4, h5, h6, _⟩ := loadDocs_spec fs idx h
  exact ⟨h1, h2, h3, h4, h5, h6⟩

/-- Witness for `c6_table_keys` on a corpus with one well-formed rule
file. -/
theorem c6_table_keys_witness :
    (∀ kv, kv ∈ ([] : List (String × Entity)) →
      kv.1 ≠ "" ∧ docIdOf kv.2.data = Except.ok kv.1) ∧
    (∀ kv, kv ∈ ([] : List (String × Entity)) →
      kv.1 ≠ "" ∧ docIdOf kv.2.data = Except.ok kv.1) ∧
    (∀ kv, kv ∈ ([] : List (String × Entity)) →
      kv.1 ≠ "" ∧ docIdOf kv.2.data = Except.ok kv.1) ∧
    (∀ kv, kv ∈ [(("RN-001"),
        (⟨("p"), Val.dict [(("id"), Val.str ("RN-001"))]⟩ : Entity))] →
      kv.1 ≠ "" ∧ docIdOf kv.2.data = Except.ok kv.1) ∧
    (∀ kv, kv ∈ ([] : List (String × Entity)) →
      kv.1 ≠ "" ∧ docIdOf kv.2.data = Except.ok kv.1) ∧
    (∀ kv, kv ∈ ([] : List (String × Val)) → kv.1 ≠ "" ∧
      ∃ v, pyGetD kv.2 (("id")) (Val.str ("")) = Except.ok v ∧
        kv.1 = pyStrip (pyStr v)) := by
  have h := c6_table_keys ⟨[], [], [], [(("p"), ("id: RN-001\n"))], []⟩
    ⟨[], [], [],
     [(("RN-001"), ⟨("p"), Val.dict [(("id"), Val.str ("RN-001"))]⟩)],
     [], [], [], []⟩ (by rfl)
  exact h

/-! ## Claim about the process exit contract -/

/-- Claim C3: when the process completes (no uncaught exception from a
structurally malformed document or an unexpectedly shaped field), it
exits with code 2 exactly when at least one hard error was logged, and
with code 0 exactly when none was — identifier-pattern warnings alone
never change the exit code. -/
theorem c3_exit_code (fs : FSys) (n : Nat) (h : mainExit fs = Except.ok n) :
    ∃ idx, indexDocs fs = Except.ok idx ∧
      ((n = 2 ∧ idx.errors ≠ []) ∨ (n = 0 ∧ idx.errors = [])) := by
  unfold mainExit at h
  cases hidx : indexDocs fs with
  | error e => rw [hidx, exBind_err] at h; simp at h
  | ok idx =>
    rw [hidx, exBind_ok] at h
    refine ⟨idx, rfl, ?_⟩
    by_cases he : idx.errors = []
    · rw [if_neg (by simpa using he)] at h
      cases hM : buildTraceMatrix idx with
      | error e => rw [hM, exBind_err] at h; simp at h
      | ok m =>
        rw [hM, exBind_ok] at h
        simp only [Except.ok.injEq] at h
        exact Or.inr ⟨h.symm, he⟩
    · rw [if_pos he] at h
      simp only [Except.ok.injEq] at h
      exact Or.inl ⟨h.symm, he⟩

/-- Witness for `c3_exit_code`: a corpus whose only finding is an
identifier-pattern warning exits 0, and a corpus with one dangling
reference exits 2. -/
theorem c3_exit_code_witness :
    (∃ idx, indexDocs ⟨[], [], [], [(("p/RN-001.yml"), ("id: reg-01\n"))], []⟩ =
        Except.ok idx ∧
      ((0 = 2 ∧ idx.errors ≠ []) ∨ (0 = 0 ∧ idx.errors = []))) ∧
    (∃ idx, indexDocs ⟨[⟨("a/screen.yml"),
        ("id: TELA_A\ncomponents:\n  - BTN_NO\n"), none⟩], [], [], [], []⟩ =
        Except.ok idx ∧
      ((2 = 2 ∧ idx.errors ≠ []) ∨ (2 = 0 ∧ idx.errors = []))) :=
  ⟨c3_exit_code ⟨[], [], [], [(("p/RN-001.yml"), ("id: reg-01\n"))], []⟩ 0 (by rfl),
   c3_exit_code ⟨[⟨("a/screen.yml"),
      ("id: TELA_A\ncomponents:\n  - BTN_NO\n"), none⟩], [], [], [], []⟩ 2 (by rfl)⟩
